import Mathlib

set_option linter.unusedVariables false

/-! Verification of the reconciliation layer of the Photo-Sign-In kiosk app
    (src/app.py): the tabular store adapter (gs_read_df / gs_write_df),
    package-catalog normalization (ensure_packages_df), check-in insertion
    (sb_insert_checkin), the archive operation (gs_archive_checkins), the
    settings registry (gs_get_setting / gs_set_setting) and the identity
    generator (gen_player_id / short_code).

    DataFrame cells are modelled as a tagged union mirroring the pandas
    object-dtype values the code manipulates: strings, floats (as rationals),
    booleans, and the missing marker pd.NA.  Relevant pandas behaviours are
    modelled as the library defines them: astype(str) renders pd.NA as the
    string "<NA>", astype(bool) applies Python bool() and raises TypeError on
    pd.NA ("boolean value of NA is ambiguous"), and bool(s) for a string s is
    "s is non-empty". -/

/-- A pandas cell value as used by src/app.py: the missing marker pd.NA, a
    string, a number (float, modelled as a rational), or a boolean. -/
inductive Cell where
  | NA : Cell
  | str : String → Cell
  | num : Rat → Cell
  | bool : Bool → Cell
  deriving DecidableEq, Repr

/-- A pandas DataFrame as used by src/app.py: ordered column labels plus rows
    of cells, each row positionally aligned with the labels. -/
structure DataFrame where
  cols : List String
  rows : List (List Cell)
  deriving DecidableEq, Repr

namespace DataFrame

/-- pandas df.empty: true when the frame has no rows or no columns. -/
def isEmpty (df : DataFrame) : Bool := df.rows.isEmpty || df.cols.isEmpty

/-- Rectangular well-formedness: every row has one cell per column label. -/
def Rect (df : DataFrame) : Prop := ∀ r ∈ df.rows, r.length = df.cols.length

instance (df : DataFrame) : Decidable df.Rect := by
  unfold Rect; infer_instance

/-- Cells of the column labelled c, in row order ([] when the label is
    absent); positional read through the first occurrence of the label,
    matching pandas label lookup on a frame with unique column labels. -/
def col (df : DataFrame) (c : String) : List Cell :=
  if c ∈ df.cols then df.rows.map (fun r => r.getD (df.cols.indexOf c) Cell.NA) else []

end DataFrame

/-- Python str.strip() with no argument: drop leading and trailing whitespace
    (ASCII whitespace model of Python's Unicode rule). -/
def pyStrip (s : String) : String :=
  String.mk (((s.data.dropWhile Char.isWhitespace).reverse.dropWhile Char.isWhitespace).reverse)

/-- src/app.py slugify: keep only alphanumeric characters and lower-case the
    result (Char.isAlphanum is the ASCII restriction of Python str.isalnum). -/
def slugify (s : String) : String :=
  String.mk ((s.data.filter Char.isAlphanum).map Char.toLower)

/-- Python str.upper(), ASCII model. -/
def pyUpper (s : String) : String := String.mk (s.data.map Char.toUpper)

/-- Python slice s[:n]: the first n characters of s. -/
def strTake (s : String) (n : Nat) : String := String.mk (s.data.take n)

/-- Decimal digit d (for d < 10) as a character. -/
def digitCh (d : Nat) : Char := Char.ofNat (48 + d)

/-- Python str(n) for a natural number: plain decimal rendering. -/
def natRepr (n : Nat) : String :=
  if n = 0 then "0" else String.mk (((Nat.digits 10 n).map digitCh).reverse)

/-- Rendering of a rational as Python renders the corresponding float.  Exact
    float formatting is irrelevant to every claim below; integral values get
    the exact Python "x.0" form and non-integral values a num/den form. -/
def ratRepr (q : Rat) : String :=
  (if q < 0 then "-" else "") ++
    (if q.den = 1 then natRepr q.num.natAbs ++ ".0"
     else natRepr q.num.natAbs ++ "/" ++ natRepr q.den)

/-- pandas Series.astype(str) applied to one cell: Python str() of the value;
    str(pd.NA) is the four-character string "<NA>". -/
def cellAstype : Cell → String
  | Cell.NA => "<NA>"
  | Cell.str s => s
  | Cell.num q => ratRepr q
  | Cell.bool b => if b then "True" else "False"

/-- gs_read_df cell normalization: .replace maps the empty string to pd.NA. -/
def readCell (s : String) : Cell := if s = "" then Cell.NA else Cell.str s

/-- gs_write_df cell serialization: df.where(pd.notnull(df), "") turns the
    missing marker into the empty string, then .astype(str) stringifies. -/
def writeCell : Cell → String
  | Cell.NA => ""
  | c => cellAstype c

/-- src/app.py gs_read_df, live path, after the worksheet lookup succeeded:
    no stored values gives an empty frame; otherwise the first stored row is
    the header, the remaining rows are data mapped positionally to it, and
    blank cells become the missing marker pd.NA. -/
def gs_read_df (values : List (List String)) : DataFrame :=
  match values with
  | [] => ⟨[], []⟩
  | header :: rows => ⟨header, rows.map (fun r => r.map readCell)⟩

/-- The spreadsheet: named worksheets, each a list of rows of strings. -/
abbrev Store := List (String × List (List String))

/-- Worksheet lookup (sh.worksheet): the values of the named worksheet. -/
def storeGet (st : Store) (name : String) : Option (List (List String)) :=
  (st.find? (fun p => p.1 = name)).map (fun p => p.2)

/-- Replace the contents of an existing worksheet (ws.clear / ws.update). -/
def storePut (st : Store) (name : String) (v : List (List String)) : Store :=
  st.map (fun p => if p.1 = name then (p.1, v) else p)

/-- Serialized form of a frame as gs_write_df uploads it: header row followed
    by the data rows, every cell stringified by writeCell. -/
def serializeDF (df : DataFrame) : List (List String) :=
  df.cols :: df.rows.map (fun r => r.map writeCell)

/-- src/app.py gs_read_df including the worksheet lookup: sh.worksheet raises
    gspread WorksheetNotFound for a missing table and nothing catches it. -/
def gs_read_df_store (st : Store) (name : String) : Except String DataFrame :=
  match storeGet st name with
  | none => Except.error "WorksheetNotFound"
  | some values => Except.ok (gs_read_df values)

/-- src/app.py gs_write_df: looks the worksheet up (sh.worksheet raises
    WorksheetNotFound when the sheet is missing — gs_write_df never creates a
    sheet), then replaces its entire contents with header plus data rows. -/
def gs_write_df_store (st : Store) (name : String) (df : DataFrame) : Except String Store :=
  match storeGet st name with
  | none => Except.error "WorksheetNotFound"
  | some _ => Except.ok (storePut st name (serializeDF df))

/-- Digit-run value helper for the decimal parser. -/
def digitsVal (l : List Char) : Nat := l.foldl (fun a c => a * 10 + (c.toNat - 48)) 0

/-- All characters are ASCII decimal digits. -/
def allDigits (l : List Char) : Bool := l.all (fun c => 48 ≤ c.toNat && c.toNat ≤ 57)

/-- Unsigned decimal literal: digits, optionally split by one point. -/
def parseNumCore (l : List Char) : Option Rat :=
  let intPart := l.takeWhile (fun c => c != '.')
  match l.dropWhile (fun c => c != '.') with
  | [] => if !intPart.isEmpty && allDigits intPart then some (digitsVal intPart) else none
  | _ :: frac =>
      if (!intPart.isEmpty || !frac.isEmpty) && allDigits intPart && allDigits frac then
        some ((digitsVal intPart : Rat) + (digitsVal frac : Rat) / ((10 : Rat) ^ frac.length))
      else none

/-- Numeric parse of a string as pd.to_numeric attempts it: surrounding
    whitespace ignored, optional sign, decimal literal (exponent forms are
    not modelled — no claim depends on numeric parsing). -/
def pyToNumeric (s : String) : Option Rat :=
  match (pyStrip s).data with
  | '-' :: rest => (parseNumCore rest).map (fun q => -q)
  | '+' :: rest => parseNumCore rest
  | l => parseNumCore l

/-- pandas pd.to_numeric(·, errors="coerce") on one cell: numbers pass
    through, booleans become 1/0, strings are parsed (None on failure), and
    the missing marker stays missing (None). -/
def toNumericCell : Cell → Option Rat
  | Cell.NA => none
  | Cell.num q => some q
  | Cell.bool b => some (if b then 1 else 0)
  | Cell.str s => pyToNumeric s

/-- pandas Series.astype(bool) on one cell: Python bool() of the value;
    bool(pd.NA) raises TypeError ("boolean value of NA is ambiguous"), so the
    missing marker is an error, and a string is truthy iff non-empty. -/
def astypeBoolCell : Cell → Except String Bool
  | Cell.NA => Except.error "TypeError: boolean value of NA is ambiguous"
  | Cell.str s => Except.ok (s != "")
  | Cell.num q => Except.ok (q != 0)
  | Cell.bool b => Except.ok b

/-- src/app.py DEFAULT_PACKAGES as the frame pd.DataFrame(DEFAULT_PACKAGES):
    columns in key order of first appearance. -/
def defaultPackagesDF : DataFrame :=
  ⟨["id", "name", "price", "active", "note"],
   [[Cell.str "BASIC", Cell.str "Basic (1 pose)", Cell.num 25, Cell.bool true, Cell.str ""],
    [Cell.str "PLUS", Cell.str "Plus (2 poses)", Cell.num 40, Cell.bool true, Cell.str ""],
    [Cell.str "DELUXE", Cell.str "Deluxe (3 poses)", Cell.num 55, Cell.bool true, Cell.str ""],
    [Cell.str "TEAM", Cell.str "Team Photo Add-on", Cell.num 10, Cell.bool false, Cell.str ""]]⟩

/-- One step of the column-backfill loop of ensure_packages_df: a missing
    column is appended with its default value in every row. -/
def addColIfMissing (df : DataFrame) (c : String) (v : Cell) : DataFrame :=
  if df.cols.contains c then df else ⟨df.cols ++ [c], df.rows.map (fun r => r ++ [v])⟩

/-- The column-backfill loop of ensure_packages_df, in source order. -/
def ensureCols (df : DataFrame) : DataFrame :=
  addColIfMissing (addColIfMissing (addColIfMissing (addColIfMissing
    (addColIfMissing df "id" (Cell.str "")) "name" (Cell.str ""))
    "price" (Cell.num 0)) "active" (Cell.bool true)) "note" (Cell.str "")

/-- Update of the cell at index j of one row (identity past the end). -/
def applyAt (f : Cell → Cell) : Nat → List Cell → List Cell
  | _, [] => []
  | 0, v :: vs => f v :: vs
  | j+1, v :: vs => v :: applyAt f j vs

/-- pandas column assignment df[c] = f(df[c]): apply f at the (first) index
    of label c in every row. -/
def mapCol (df : DataFrame) (c : String) (f : Cell → Cell) : DataFrame :=
  ⟨df.cols, df.rows.map (applyAt f (df.cols.indexOf c))⟩

/-- Fallible update of the cell at index j of one row. -/
def applyAtE (f : Cell → Except String Cell) : Nat → List Cell → Except String (List Cell)
  | _, [] => Except.ok []
  | 0, v :: vs => do
      let v' ← f v
      Except.ok (v' :: vs)
  | j+1, v :: vs => do
      let vs' ← applyAtE f j vs
      Except.ok (v :: vs')

/-- The active coercion of ensure_packages_df: df["active"].astype(bool);
    the whole assignment fails if any cell of the column is pd.NA. -/
def coerceActive (df : DataFrame) : Except String DataFrame := do
  let rows ← df.rows.mapM
    (applyAtE (fun c => (astypeBoolCell c).map Cell.bool) (df.cols.indexOf "active"))
  return ⟨df.cols, rows⟩

/-- The while-loop of the auto-ID assignment: try base12 ++ str n for
    increasing n until the candidate is not in the existing id set.  Python's
    loop always terminates because the id set is finite; fuel one larger than
    the size of the set is enough by pigeonhole (proved below), so with that
    fuel this equals the source loop. -/
def autoIdLoop (base12 : String) : Nat → Nat → List String → String
  | 0, n, _ => base12 ++ natRepr n
  | fuel+1, n, existing =>
      let c := base12 ++ natRepr n
      if c ∈ existing then autoIdLoop base12 fuel (n+1) existing else c

/-- Auto-ID candidate generation of ensure_packages_df for the row at
    positional index i with the given (already string-coerced) name. -/
def pickAutoId (name : String) (i : Nat) (existing : List String) : String :=
  let base := if slugify name = "" then "pkg" ++ natRepr i else slugify name
  let c0 := if strTake (pyUpper base) 16 = "" then "PKG" ++ natRepr i
            else strTake (pyUpper base) 16
  if c0 ∈ existing then
    autoIdLoop (strTake (pyUpper base) 12) (existing.length + 1) 2 existing
  else c0

/-- The auto-ID loop of ensure_packages_df over the rows, in index order:
    a row whose id is blank after astype(str) and strip receives a fresh id,
    which is immediately added to the growing id set; other rows are left
    alone.  (The source computes the needs-id mask before the loop; the loop
    only writes the id of the row being visited, so visiting rows in
    increasing index order is equivalent.) -/
def assignRows (idI nameI : Nat) : Nat → List String → List (List Cell) → List (List Cell)
  | _, _, [] => []
  | i, existing, r :: rs =>
      if pyStrip (cellAstype (r.getD idI Cell.NA)) = "" then
        let nm := cellAstype (r.getD nameI Cell.NA)
        let newId := pickAutoId nm i existing
        r.set idI (Cell.str newId) :: assignRows idI nameI (i+1) (newId :: existing) rs
      else r :: assignRows idI nameI (i+1) existing rs

/-- The auto-ID stage of ensure_packages_df: the initial id set is the
    astype(str) image of the whole id column (Python set(...), membership
    only), then the rows are processed in order. -/
def assignIds (df : DataFrame) : DataFrame :=
  let idI := df.cols.indexOf "id"
  let nameI := df.cols.indexOf "name"
  ⟨df.cols,
   assignRows idI nameI 0 (df.rows.map (fun r => cellAstype (r.getD idI Cell.NA))) df.rows⟩

/-- Row filter of ensure_packages_df: keep rows whose coerced name is a
    non-empty string (df[df["name"].str.len() > 0]). -/
def filterNamed (df : DataFrame) : DataFrame :=
  ⟨df.cols,
   df.rows.filter (fun r => cellAstype (r.getD (df.cols.indexOf "name") Cell.NA) != "")⟩

/-- src/app.py ensure_packages_df: seed the default catalog for an empty or
    name-less table; otherwise backfill the five catalog columns, coerce
    name, price and active in source order, auto-assign blank ids, and drop
    rows whose coerced name is empty.  The active coercion can raise
    (astype(bool) on pd.NA), hence the Except result. -/
def ensure_packages_df (df : DataFrame) : Except String DataFrame := do
  if df.isEmpty || !(df.cols.contains "name") then
    return defaultPackagesDF
  else
    let df1 := ensureCols df
    let df2 := mapCol df1 "name" (fun c => Cell.str (pyStrip (cellAstype c)))
    let df3 := mapCol df2 "price" (fun c => Cell.num ((toNumericCell c).getD 0))
    let df4 ← coerceActive df3
    return filterNamed (assignIds df4)

/-- A check-in record: a Python dict as an ordered association list (the
    dict's unique keys, in insertion order). -/
abbrev Record := List (String × Cell)

/-- src/app.py sb_insert_checkin at the frame level: on an empty table the
    record becomes the sole row (its keys the header); otherwise each record
    key missing from the existing columns is appended as a new column
    (pd.NA on all prior rows) and the record is appended as the final row,
    cells aligned to the column labels by name. -/
def sb_insert_checkin (existing : DataFrame) (row : Record) : DataFrame :=
  if existing.isEmpty then ⟨row.map Prod.fst, [row.map Prod.snd]⟩
  else
    let newCols := (row.map Prod.fst).filter (fun c => !(existing.cols.contains c))
    let cols := existing.cols ++ newCols
    ⟨cols,
     existing.rows.map (fun r => r ++ List.replicate newCols.length Cell.NA) ++
       [cols.map (fun c => ((row.find? (fun p => p.1 = c)).map Prod.snd).getD Cell.NA)]⟩

/-- pandas scalar column assignment df[c] = v: overwrite the column in place
    when the label exists, otherwise append it; the value is uniform. -/
def setColConst (df : DataFrame) (c : String) (v : Cell) : DataFrame :=
  if df.cols.contains c then
    ⟨df.cols, df.rows.map (applyAt (fun _ => v) (df.cols.indexOf c))⟩
  else ⟨df.cols ++ [c], df.rows.map (fun r => r ++ [v])⟩

/-- src/app.py gs_archive_checkins with the datetime stamp as a parameter:
    read Checkins (read errors propagate); return the store unchanged with
    ("", 0) for an empty frame; otherwise append the fixed-format suffix to
    the sheet name, add the uniform __archive_note__ column when the note is
    non-empty, and hand the frame to gs_write_df, whose result (including the
    WorksheetNotFound it raises for a sheet that does not yet exist)
    propagates.  On success: updated store, archive name, archived count. -/
def gs_archive_checkins (st : Store) (note : String) (stamp : String) :
    Except String (Store × String × Nat) := do
  let df ← gs_read_df_store st "Checkins"
  let rows := if df.isEmpty then 0 else df.rows.length
  if rows = 0 then
    return (st, "", 0)
  else
    let archiveName := "Checkins" ++ "_Archive_" ++ stamp
    let df2 := if note != "" then setColConst df "__archive_note__" (Cell.str note) else df
    let st2 ← gs_write_df_store st archiveName df2
    return (st2, archiveName, rows)

/-- src/app.py gs_get_setting at the frame level: the default when the table
    is empty or lacks a key column; otherwise the first row whose key cell
    equals the key supplies the value, the default standing in when that
    stored value is the missing marker. -/
def gs_get_setting (df : DataFrame) (key dflt : String) : String :=
  if df.isEmpty || !(df.cols.contains "key") then dflt
  else
    match df.rows.find? (fun r => r.getD (df.cols.indexOf "key") Cell.NA == Cell.str key) with
    | none => dflt
    | some r =>
        match r.getD (df.cols.indexOf "value") Cell.NA with
        | Cell.NA => dflt
        | c => cellAstype c

/-- Modelled from the spec: gs_set_setting is called by src/app.py (policy
    editor, settings section, healthcheck) but its definition is missing from
    the source under src/.  Spec 4.3: read the settings table; if empty,
    create it with a single row for this key; else if the key exists, update
    that row's value in place; else append a new row. -/
def gs_set_setting (df : DataFrame) (key value : String) : DataFrame :=
  if df.isEmpty then ⟨["key", "value"], [[Cell.str key, Cell.str value]]⟩
  else
    let keyI := df.cols.indexOf "key"
    let valI := df.cols.indexOf "value"
    if df.rows.any (fun r => r.getD keyI Cell.NA == Cell.str key) then
      ⟨df.cols, df.rows.map (fun r =>
        if r.getD keyI Cell.NA == Cell.str key then r.set valI (Cell.str value) else r)⟩
    else
      ⟨df.cols, df.rows ++ [df.cols.map (fun c =>
        if c = "key" then Cell.str key else if c = "value" then Cell.str value else Cell.NA)]⟩

/-- Modelled from the spec: store-level set(key, value) — read the settings
    table, apply the update, write the whole table back. -/
def gs_set_setting_store (st : Store) (key value : String) : Except String Store := do
  let df ← gs_read_df_store st "Settings"
  gs_write_df_store st "Settings" (gs_set_setting df key value)

/-- src/app.py page_kiosk as_bool: booleans pass through; any other value is
    stringified, stripped, lower-cased and tested against the truthy set. -/
def as_bool (v : Cell) : Bool :=
  match v with
  | Cell.bool b => b
  | v =>
      let s := String.mk ((pyStrip (cellAstype v)).data.map Char.toLower)
      (s == "true") || (s == "1") || (s == "yes") || (s == "y") || (s == "t")

/-- Truncation to a 32-bit word for SHA-1 arithmetic. -/
def w32 (n : Nat) : Nat := n % 4294967296

/-- Left rotation of a 32-bit word by k. -/
def rotl32 (x k : Nat) : Nat :=
  w32 (Nat.lor (Nat.shiftLeft x k) (Nat.shiftRight x (32 - k)))

/-- Running SHA-1 state: five 32-bit words. -/
structure SHA1State where
  a : Nat
  b : Nat
  c : Nat
  d : Nat
  e : Nat
  deriving DecidableEq, Repr

/-- Big-endian bytes of a 32-bit word. -/
def be4 (n : Nat) : List Nat :=
  [n / 16777216 % 256, n / 65536 % 256, n / 256 % 256, n % 256]

/-- Big-endian bytes of a 64-bit length field. -/
def be8 (n : Nat) : List Nat :=
  [n / 72057594037927936 % 256, n / 281474976710656 % 256, n / 1099511627776 % 256,
   n / 4294967296 % 256, n / 16777216 % 256, n / 65536 % 256, n / 256 % 256, n % 256]

/-- Group bytes into big-endian 32-bit words. -/
def bytesToWords : List Nat → List Nat
  | b0 :: b1 :: b2 :: b3 :: rest =>
      (((b0 * 256 + b1) * 256 + b2) * 256 + b3) :: bytesToWords rest
  | _ => []

/-- SHA-1 message-schedule expansion: extend to the full 80 words. -/
def sha1Expand : Nat → List Nat → List Nat
  | 0, acc => acc
  | k+1, acc =>
      let m := acc.length
      sha1Expand k (acc ++
        [rotl32 (Nat.xor (Nat.xor (acc.getD (m - 3) 0) (acc.getD (m - 8) 0))
                 (Nat.xor (acc.getD (m - 14) 0) (acc.getD (m - 16) 0))) 1])

/-- SHA-1 round function by round index. -/
def sha1F (t b c d : Nat) : Nat :=
  if t < 20 then Nat.lor (Nat.land b c) (Nat.land (Nat.xor b 4294967295) d)
  else if t < 40 then Nat.xor (Nat.xor b c) d
  else if t < 60 then Nat.lor (Nat.lor (Nat.land b c) (Nat.land b d)) (Nat.land c d)
  else Nat.xor (Nat.xor b c) d

/-- SHA-1 round constant by round index. -/
def sha1K (t : Nat) : Nat :=
  if t < 20 then 1518500249
  else if t < 40 then 1859775393
  else if t < 60 then 2400959708
  else 3395469782

/-- One SHA-1 round. -/
def sha1Round (st : SHA1State) (t w : Nat) : SHA1State :=
  ⟨w32 (rotl32 st.a 5 + sha1F t st.b st.c st.d + st.e + sha1K t + w),
   st.a, rotl32 st.b 30, st.c, st.d⟩

/-- One 64-byte chunk: expand the schedule, run 80 rounds, add the result. -/
def sha1Step (h : SHA1State) (chunk : List Nat) : SHA1State :=
  let ws := sha1Expand 64 (bytesToWords chunk)
  let st := (List.range 80).foldl (fun s t => sha1Round s t (ws.getD t 0)) h
  ⟨w32 (h.a + st.a), w32 (h.b + st.b), w32 (h.c + st.c), w32 (h.d + st.d), w32 (h.e + st.e)⟩

/-- Split a byte string into 64-byte chunks. -/
def chunk64 (l : List Nat) : List (List Nat) :=
  match l with
  | [] => []
  | x :: xs => ((x :: xs).take 64) :: chunk64 ((x :: xs).drop 64)
termination_by l.length
decreasing_by simp [List.length_drop]; omega

/-- SHA-1 padding: 0x80, zeros to 56 mod 64, 64-bit big-endian bit length. -/
def sha1Pad (msg : List Nat) : List Nat :=
  msg ++ [128] ++ List.replicate ((119 - (msg.length % 64)) % 64) 0 ++ be8 (msg.length * 8)

/-- SHA-1 digest of a byte string, as 20 bytes. -/
def sha1Bytes (msg : List Nat) : List Nat :=
  let h := (chunk64 (sha1Pad msg)).foldl sha1Step
    ⟨1732584193, 4023233417, 2562383102, 271733878, 3285377520⟩
  be4 h.a ++ be4 h.b ++ be4 h.c ++ be4 h.d ++ be4 h.e

/-- Lower-case hexadecimal digit characters. -/
def hexCh (d : Nat) : Char := "0123456789abcdef".data.getD d 'x'

/-- Two hex characters of one byte. -/
def hexByte (b : Nat) : List Char := [hexCh (b / 16 % 16), hexCh (b % 16)]

/-- Python hashlib hexdigest: two lower-case hex characters per byte. -/
def hexdigest (bytes : List Nat) : String := String.mk (bytes.map hexByte).flatten

/-- UTF-8 bytes of a string (str.encode). -/
def utf8Bytes (s : String) : List Nat := s.toUTF8.toList.map (fun b => b.toNat)

/-- src/app.py gen_player_id: sha1 of the stripped "first-last-team" string,
    truncated to the first 10 hex characters. -/
def gen_player_id (first last team : String) : String :=
  strTake (hexdigest (sha1Bytes (utf8Bytes (pyStrip (first ++ "-" ++ last ++ "-" ++ team))))) 10

/-- src/app.py short_code: sha1 of the player id, first 6 hex characters,
    upper-cased. -/
def short_code (pid : String) : String :=
  pyUpper (strTake (hexdigest (sha1Bytes (utf8Bytes pid))) 6)

/-- The canonical string gen_player_id actually hashes. -/
def canonicalBase (first last team : String) : String :=
  pyStrip (first ++ "-" ++ last ++ "-" ++ team)

/-- The cell is a string value (not NA, numeric or boolean). -/
def isStrCell : Cell → Bool
  | Cell.str _ => true
  | _ => false

/-- The cell is a non-empty string value. -/
def isNonemptyStr : Cell → Bool
  | Cell.str s => s != ""
  | _ => false

/-- astype(str) image of the cells at index idI of each row (the id strings
    the auto-ID loop compares against). -/
def idsOf (idI : Nat) (rows : List (List Cell)) : List String :=
  rows.map (fun r => cellAstype (r.getD idI Cell.NA))

/-! Helper lemmas. -/

theorem hexBytes_flatten_length (bytes : List Nat) :
    ((bytes.map hexByte).flatten).length = 2 * bytes.length := by
  induction bytes with
  | nil => rfl
  | cons b bs ih => simp [hexByte] at *; omega

theorem hexdigest_length (bytes : List Nat) :
    (hexdigest bytes).length = 2 * bytes.length := by
  simpa [hexdigest, String.length] using hexBytes_flatten_length bytes

theorem sha1Bytes_length (msg : List Nat) : (sha1Bytes msg).length = 20 := by
  simp [sha1Bytes, be4]

theorem hexCh_mem_of_lt (d : Nat) (h : d < 16) : hexCh d ∈ "0123456789abcdef".data := by
  have hball : ∀ d, d < 16 → hexCh d ∈ "0123456789abcdef".data := by decide
  exact hball d h

theorem hexdigest_mem (bytes : List Nat) :
    ∀ c ∈ (hexdigest bytes).data, c ∈ "0123456789abcdef".data := by
  intro c hc
  simp only [hexdigest] at hc
  rcases List.mem_flatten.mp hc with ⟨l, hl, hcl⟩
  rcases List.mem_map.mp hl with ⟨b, _, rfl⟩
  simp only [hexByte, List.mem_cons, List.not_mem_nil, or_false] at hcl
  rcases hcl with rfl | rfl
  · exact hexCh_mem_of_lt _ (Nat.mod_lt _ (by omega))
  · exact hexCh_mem_of_lt _ (Nat.mod_lt _ (by omega))

theorem length_mk (l : List Char) : (String.mk l).length = l.length := rfl

theorem strTake_length (s : String) (n : Nat) :
    (strTake s n).length = min n s.length := by
  rw [strTake, length_mk, List.length_take]
  rfl

theorem strTake_data_subset (s : String) (n : Nat) :
    ∀ c ∈ (strTake s n).data, c ∈ s.data := by
  intro c hc
  exact List.take_subset n s.data hc

theorem pyUpper_length (s : String) : (pyUpper s).length = s.length := by
  rw [pyUpper, length_mk, List.length_map]
  rfl

theorem upper_of_lowhex :
    ∀ c ∈ "0123456789abcdef".data,
      Char.toUpper c ∈ "0123456789ABCDEF".data ∧ (Char.toUpper c).isLower = false := by
  decide

/-! Claim theorems. -/

/-- C5: for every (first, last, team) triple — empty inputs included — the
    generated player id is a 10-character lower-case-hexadecimal string, and
    the short code derived from it is a 6-character string over the
    upper-case hexadecimal alphabet with no lower-case character.
    Determinism over equal inputs is inherent to the functional embedding:
    gen_player_id and short_code are pure functions of their arguments. -/
theorem c5_id_and_code_format (first last team : String) :
    (gen_player_id first last team).length = 10 ∧
    (∀ c ∈ (gen_player_id first last team).data, c ∈ "0123456789abcdef".data) ∧
    (short_code (gen_player_id first last team)).length = 6 ∧
    (∀ c ∈ (short_code (gen_player_id first last team)).data,
        c ∈ "0123456789ABCDEF".data ∧ c.isLower = false) := by
  refine ⟨?_, ?_, ?_, ?_⟩
  · rw [gen_player_id, strTake_length, hexdigest_length, sha1Bytes_length]
    rfl
  · intro c hc
    exact hexdigest_mem _ c (strTake_data_subset _ _ c hc)
  · rw [short_code, pyUpper_length, strTake_length, hexdigest_length, sha1Bytes_length]
    rfl
  · intro c hc
    rw [short_code, pyUpper] at hc
    rcases List.mem_map.mp hc with ⟨c', hc', rfl⟩
    exact upper_of_lowhex c' (hexdigest_mem _ c' (strTake_data_subset _ _ c' hc'))

/-- C6 counterexample: the claim asserts that any two triples differing in
    any character — leading or trailing whitespace of a field included —
    yield ids computed from distinct canonical strings.  The triples
    (" A", "L", "T") and ("A", "L", "T") differ in the first field's leading
    whitespace, yet f-string concatenation followed by .strip() produces the
    same canonical string, and hence the identical id. -/
theorem c6_counterexample :
    ((" A", "L", "T") : String × String × String) ≠ ("A", "L", "T") ∧
    canonicalBase " A" "L" "T" = canonicalBase "A" "L" "T" ∧
    gen_player_id " A" "L" "T" = gen_player_id "A" "L" "T" := by
  refine ⟨by decide, by decide, ?_⟩
  have h : pyStrip (" A" ++ "-" ++ "L" ++ "-" ++ "T")
      = pyStrip ("A" ++ "-" ++ "L" ++ "-" ++ "T") := by decide
  unfold gen_player_id
  rw [h]

/-- C6 (amended): gen_player_id is a function of the canonical string
    strip(first ++ "-" ++ last ++ "-" ++ team) alone, so two triples with
    equal canonical strings — e.g. differing only in leading whitespace of
    the first field or trailing whitespace of the team field — receive the
    identical id; only triples whose canonical strings differ have their ids
    computed from distinct canonical strings. -/
theorem c6_amended (f l t f' l' t' : String)
    (h : canonicalBase f l t = canonicalBase f' l' t') :
    gen_player_id f l t = gen_player_id f' l' t' := by
  unfold canonicalBase at h
  unfold gen_player_id
  rw [h]

theorem c6_amended_witness :
    canonicalBase "  Alex" "Lopez" "U10 Red" = canonicalBase "Alex" "Lopez" "U10 Red" ∧
    gen_player_id "  Alex" "Lopez" "U10 Red" = gen_player_id "Alex" "Lopez" "U10 Red" :=
  ⟨by decide, c6_amended "  Alex" "Lopez" "U10 Red" "Alex" "Lopez" "U10 Red" (by decide)⟩

/-- C7: for every raw package table that is empty or lacks a name column,
    ensure_packages_df returns exactly the built-in default catalog — four
    rows with ids BASIC, PLUS, DELUXE and TEAM — and in particular never an
    empty catalog for such input. -/
theorem c7_default_catalog (df : DataFrame)
    (h : (df.isEmpty || !(df.cols.contains "name")) = true) :
    ensure_packages_df df = Except.ok defaultPackagesDF ∧
    defaultPackagesDF.rows.length = 4 ∧
    defaultPackagesDF.col "id"
      = [Cell.str "BASIC", Cell.str "PLUS", Cell.str "DELUXE", Cell.str "TEAM"] ∧
    defaultPackagesDF.rows ≠ [] := by
  refine ⟨?_, by decide, by decide, by decide⟩
  unfold ensure_packages_df
  rw [if_pos h]
  rfl

theorem c7_default_catalog_witness :
    ensure_packages_df ⟨[], []⟩ = Except.ok defaultPackagesDF ∧
    defaultPackagesDF.rows.length = 4 ∧
    defaultPackagesDF.col "id"
      = [Cell.str "BASIC", Cell.str "PLUS", Cell.str "DELUXE", Cell.str "TEAM"] ∧
    defaultPackagesDF.rows ≠ [] :=
  c7_default_catalog ⟨[], []⟩ (by decide)

/-- C8 counterexample: the claim says readTable returns an empty result for a
    nonexistent table, but gs_read_df calls sh.worksheet, which raises
    WorksheetNotFound for an unknown sheet and the function does not catch
    it: the read of any name absent from the store is an error, not an empty
    table. -/
theorem c8_counterexample :
    storeGet ([] : Store) "Settings" = none ∧
    gs_read_df_store ([] : Store) "Settings" = Except.error "WorksheetNotFound" ∧
    gs_read_df_store ([] : Store) "Settings" ≠ Except.ok ⟨[], []⟩ :=
  ⟨rfl, rfl, fun h => Except.noConfusion h⟩

/-- C8 (amended): for a table that does not exist the read raises
    WorksheetNotFound (which propagates uncaught); for an existing table it
    returns an empty result when the stored values are empty or a single
    header row, and otherwise treats the first stored row as the column
    header, maps the remaining rows positionally onto it, and normalizes
    every blank cell to the missing marker pd.NA rather than the empty
    string. -/
theorem c8_amended (st : Store) (name : String) (values : List (List String))
    (h : storeGet st name = some values) :
    gs_read_df_store st name = Except.ok (gs_read_df values) ∧
    (values.tail = [] → (gs_read_df values).rows = []) ∧
    (∀ header rows, values = header :: rows →
        (gs_read_df values).cols = header ∧
        (gs_read_df values).rows = rows.map (fun r => r.map readCell)) ∧
    readCell "" = Cell.NA ∧
    (∀ s : String, s ≠ "" → readCell s = Cell.str s) := by
  refine ⟨?_, ?_, ?_, rfl, ?_⟩
  · rw [gs_read_df_store, h]
  · intro ht
    match values, ht with
    | [], _ => rfl
    | [header], _ => rfl
  · intro header rows hv
    subst hv
    exact ⟨rfl, rfl⟩
  · intro s hs
    simp [readCell, hs]

theorem c8_amended_witness :
    gs_read_df_store [("Settings", [["key", "value"], ["ORG_NAME", ""]])] "Settings"
        = Except.ok (gs_read_df [["key", "value"], ["ORG_NAME", ""]]) ∧
    (([["key", "value"], ["ORG_NAME", ""]] : List (List String)).tail = [] →
        (gs_read_df [["key", "value"], ["ORG_NAME", ""]]).rows = []) ∧
    (∀ header rows,
        ([["key", "value"], ["ORG_NAME", ""]] : List (List String)) = header :: rows →
        (gs_read_df [["key", "value"], ["ORG_NAME", ""]]).cols = header ∧
        (gs_read_df [["key", "value"], ["ORG_NAME", ""]]).rows
          = rows.map (fun r => r.map readCell)) ∧
    readCell "" = Cell.NA ∧
    (∀ s : String, s ≠ "" → readCell s = Cell.str s) :=
  c8_amended [("Settings", [["key", "value"], ["ORG_NAME", ""]])] "Settings"
    [["key", "value"], ["ORG_NAME", ""]] rfl

/-- C9: archiving a check-ins table that exists but holds zero data rows
    returns the empty archive name with count zero and performs no write at
    all: the store is returned unchanged, so no new table is created. -/
theorem c9_archive_empty_noop (st : Store) (note stamp : String)
    (values : List (List String))
    (h : storeGet st "Checkins" = some values) (h2 : values.tail = []) :
    gs_archive_checkins st note stamp = Except.ok (st, "", 0) := by
  match values, h2 with
  | [], _ =>
      unfold gs_archive_checkins gs_read_df_store
      rw [h]
      rfl
  | [header], _ =>
      unfold gs_archive_checkins gs_read_df_store
      rw [h]
      rfl

theorem c9_archive_empty_noop_witness :
    gs_archive_checkins [("Checkins", [["ts", "first_name"]])] "note" "20250101-120000"
      = Except.ok ([("Checkins", [["ts", "first_name"]])], "", 0) :=
  c9_archive_empty_noop [("Checkins", [["ts", "first_name"]])] "note" "20250101-120000"
    [["ts", "first_name"]] rfl rfl

/-- C3 (code bug): with one check-in present, gs_archive_checkins computes
    the fresh timestamped archive name and hands the frame to gs_write_df,
    but gs_write_df resolves its worksheet with sh.worksheet, which raises
    WorksheetNotFound for a sheet that does not exist yet — and a sheet named
    with a fresh timestamp never exists.  The archive operation therefore
    raises instead of creating the brand-new table the docstring ("Copy
    current Checkins tab to a new archive tab") and the spec promise. -/
theorem c3_archive_write_raises :
    (gs_read_df [["first_name"], ["Alex"]]).rows.length = 1 ∧
    storeGet [("Checkins", [["first_name"], ["Alex"]])] "Checkins_Archive_20250101-120000"
      = none ∧
    gs_archive_checkins [("Checkins", [["first_name"], ["Alex"]])] "" "20250101-120000"
      = Except.error "WorksheetNotFound" :=
  ⟨rfl, rfl, rfl⟩

/-- C2: inserting a record into a non-empty check-ins table appends every
    record key absent from the existing columns as a new column at the end
    (in the record's insertion order of first appearance), leaves every
    previously existing cell value unchanged while backfilling exactly the
    new columns of each prior row with the missing marker, removes no
    column, and appends the record as the last row, aligned by column name. -/
theorem c2_insert_reconciles (existing : DataFrame) (row : Record)
    (hne : existing.isEmpty = false) :
    (sb_insert_checkin existing row).cols
        = existing.cols ++ (row.map Prod.fst).filter (fun c => !(existing.cols.contains c)) ∧
    (∀ c ∈ existing.cols, c ∈ (sb_insert_checkin existing row).cols) ∧
    (sb_insert_checkin existing row).rows.length = existing.rows.length + 1 ∧
    (∀ i, i < existing.rows.length →
        (sb_insert_checkin existing row).rows.getD i []
          = existing.rows.getD i []
              ++ List.replicate
                  ((row.map Prod.fst).filter (fun c => !(existing.cols.contains c))).length
                  Cell.NA) ∧
    (sb_insert_checkin existing row).rows.getLast?
      = some ((existing.cols
            ++ (row.map Prod.fst).filter (fun c => !(existing.cols.contains c))).map
          (fun c => ((row.find? (fun p => p.1 = c)).map Prod.snd).getD Cell.NA)) := by
  rw [sb_insert_checkin, if_neg (by simp [hne])]
  refine ⟨rfl, ?_, ?_, ?_, ?_⟩
  · intro c hc
    exact List.mem_append_left _ hc
  · simp
  · intro i hi
    have hi' : i < (existing.rows.map
        (fun r => r ++ List.replicate
          ((row.map Prod.fst).filter (fun c => !(existing.cols.contains c))).length
          Cell.NA)).length := by
      simpa using hi
    rw [List.getD_append _ _ _ _ hi', List.getD_eq_getElem _ _ hi', List.getElem_map,
      List.getD_eq_getElem _ _ hi]
  · exact List.getLast?_concat _

theorem c2_insert_reconciles_witness :
    (sb_insert_checkin ⟨["ts"], [[Cell.str "1"]]⟩
          [("ts", Cell.str "2"), ("note", Cell.str "hi")]).cols
        = ["ts"] ++ (([("ts", Cell.str "2"), ("note", Cell.str "hi")].map Prod.fst).filter
            (fun c => !((["ts"] : List String).contains c))) ∧
    (∀ c ∈ (["ts"] : List String),
        c ∈ (sb_insert_checkin ⟨["ts"], [[Cell.str "1"]]⟩
          [("ts", Cell.str "2"), ("note", Cell.str "hi")]).cols) ∧
    (sb_insert_checkin ⟨["ts"], [[Cell.str "1"]]⟩
        [("ts", Cell.str "2"), ("note", Cell.str "hi")]).rows.length
      = ([[Cell.str "1"]] : List (List Cell)).length + 1 ∧
    (∀ i, i < ([[Cell.str "1"]] : List (List Cell)).length →
        (sb_insert_checkin ⟨["ts"], [[Cell.str "1"]]⟩
            [("ts", Cell.str "2"), ("note", Cell.str "hi")]).rows.getD i []
          = ([[Cell.str "1"]] : List (List Cell)).getD i []
              ++ List.replicate
                  ((([("ts", Cell.str "2"), ("note", Cell.str "hi")].map Prod.fst).filter
                    (fun c => !((["ts"] : List String).contains c))).length)
                  Cell.NA) ∧
    (sb_insert_checkin ⟨["ts"], [[Cell.str "1"]]⟩
        [("ts", Cell.str "2"), ("note", Cell.str "hi")]).rows.getLast?
      = some ((["ts"]
            ++ ([("ts", Cell.str "2"), ("note", Cell.str "hi")].map Prod.fst).filter
              (fun c => !((["ts"] : List String).contains c))).map
          (fun c => (([("ts", Cell.str "2"), ("note", Cell.str "hi")].find?
              (fun p => p.1 = c)).map Prod.snd).getD Cell.NA)) :=
  c2_insert_reconciles ⟨["ts"], [[Cell.str "1"]]⟩
    [("ts", Cell.str "2"), ("note", Cell.str "hi")] rfl

/-- C4 (spec-modelled: gs_set_setting is called but not defined under src/):
    set(key, value) reads the settings table and writes back the whole
    transformed table; the transformation creates a single row for the key
    when the table is empty, updates the matching row's value cell in place
    (same columns, same row count, only matching rows touched) when the key
    exists, and appends one new row for the key otherwise. -/
theorem c4_set_setting (st : Store) (key value : String) (values : List (List String))
    (h : storeGet st "Settings" = some values) :
    gs_set_setting_store st key value
      = Except.ok (storePut st "Settings"
          (serializeDF (gs_set_setting (gs_read_df values) key value))) ∧
    (∀ df : DataFrame, df.isEmpty = true →
        gs_set_setting df key value
          = ⟨["key", "value"], [[Cell.str key, Cell.str value]]⟩) ∧
    (∀ df : DataFrame, df.isEmpty = false →
        (df.rows.any
          (fun r => r.getD (df.cols.indexOf "key") Cell.NA == Cell.str key)) = true →
        (gs_set_setting df key value).cols = df.cols ∧
        (gs_set_setting df key value).rows.length = df.rows.length ∧
        (gs_set_setting df key value).rows
          = df.rows.map (fun r =>
              if r.getD (df.cols.indexOf "key") Cell.NA == Cell.str key then
                r.set (df.cols.indexOf "value") (Cell.str value)
              else r)) ∧
    (∀ df : DataFrame, df.isEmpty = false →
        (df.rows.any
          (fun r => r.getD (df.cols.indexOf "key") Cell.NA == Cell.str key)) = false →
        (gs_set_setting df key value).cols = df.cols ∧
        (gs_set_setting df key value).rows
          = df.rows ++ [df.cols.map (fun c =>
              if c = "key" then Cell.str key
              else if c = "value" then Cell.str value else Cell.NA)]) := by
  refine ⟨?_, ?_, ?_, ?_⟩
  · rw [gs_set_setting_store]
    show (gs_read_df_store st "Settings") >>= _ = _
    rw [gs_read_df_store, h]
    show gs_write_df_store st "Settings" _ = _
    rw [gs_write_df_store, h]
  · intro df hdf
    rw [gs_set_setting, if_pos hdf]
  · intro df hdf hany
    rw [gs_set_setting, if_neg (by simp [hdf]), if_pos hany]
    exact ⟨rfl, by simp, rfl⟩
  · intro df hdf hany
    rw [gs_set_setting, if_neg (by simp [hdf]), if_neg (by rw [hany]; decide)]
    exact ⟨rfl, rfl⟩

theorem c4_set_setting_witness :
    gs_set_setting_store [("Settings", [["key", "value"]])] "ORG_NAME" "Acme"
      = Except.ok (storePut [("Settings", [["key", "value"]])] "Settings"
          (serializeDF (gs_set_setting (gs_read_df [["key", "value"]]) "ORG_NAME" "Acme"))) ∧
    (∀ df : DataFrame, df.isEmpty = true →
        gs_set_setting df "ORG_NAME" "Acme"
          = ⟨["key", "value"], [[Cell.str "ORG_NAME", Cell.str "Acme"]]⟩) ∧
    (∀ df : DataFrame, df.isEmpty = false →
        (df.rows.any
          (fun r => r.getD (df.cols.indexOf "key") Cell.NA == Cell.str "ORG_NAME")) = true →
        (gs_set_setting df "ORG_NAME" "Acme").cols = df.cols ∧
        (gs_set_setting df "ORG_NAME" "Acme").rows.length = df.rows.length ∧
        (gs_set_setting df "ORG_NAME" "Acme").rows
          = df.rows.map (fun r =>
              if r.getD (df.cols.indexOf "key") Cell.NA == Cell.str "ORG_NAME" then
                r.set (df.cols.indexOf "value") (Cell.str "Acme")
              else r)) ∧
    (∀ df : DataFrame, df.isEmpty = false →
        (df.rows.any
          (fun r => r.getD (df.cols.indexOf "key") Cell.NA == Cell.str "ORG_NAME")) = false →
        (gs_set_setting df "ORG_NAME" "Acme").cols = df.cols ∧
        (gs_set_setting df "ORG_NAME" "Acme").rows
          = df.rows ++ [df.cols.map (fun c =>
              if c = "key" then Cell.str "ORG_NAME"
              else if c = "value" then Cell.str "Acme" else Cell.NA)]) :=
  c4_set_setting [("Settings", [["key", "value"]])] "ORG_NAME" "Acme" [["key", "value"]] rfl

theorem applyAt_length (f : Cell → Cell) (j : Nat) (r : List Cell) :
    (applyAt f j r).length = r.length := by
  induction r generalizing j with
  | nil => cases j <;> rfl
  | cons v vs ih =>
      cases j with
      | zero => rfl
      | succ j' => simpa [applyAt] using ih j'

theorem applyAt_getD_ne (f : Cell → Cell) (j k : Nat) (r : List Cell) (d : Cell)
    (hk : k ≠ j) : (applyAt f j r).getD k d = r.getD k d := by
  induction r generalizing j k with
  | nil => cases j <;> rfl
  | cons v vs ih =>
      cases j with
      | zero =>
          cases k with
          | zero => exact absurd rfl hk
          | succ k' => rfl
      | succ j' =>
          cases k with
          | zero => rfl
          | succ k' => simpa [applyAt] using ih j' k' (by omega)

theorem applyAt_getD_eq (f : Cell → Cell) (j : Nat) (r : List Cell) (d : Cell)
    (hj : j < r.length) : (applyAt f j r).getD j d = f (r.getD j d) := by
  induction r generalizing j with
  | nil => simp at hj
  | cons v vs ih =>
      cases j with
      | zero => rfl
      | succ j' => simpa [applyAt] using ih j' (by simpa using hj)

theorem applyAtE_ok (f : Cell → Except String Cell) (j : Nat) (r r' : List Cell)
    (h : applyAtE f j r = Except.ok r') :
    r'.length = r.length ∧
    (∀ k d, k ≠ j → r'.getD k d = r.getD k d) ∧
    (j < r.length → ∃ v, f (r.getD j Cell.NA) = Except.ok v ∧ r'.getD j Cell.NA = v) := by
  induction r generalizing j r' with
  | nil =>
      cases j with
      | zero =>
          cases h
          exact ⟨rfl, fun k d _ => rfl, by intro hj; simp at hj⟩
      | succ j' =>
          cases h
          exact ⟨rfl, fun k d _ => rfl, by intro hj; simp at hj⟩
  | cons v vs ih =>
      cases j with
      | zero =>
          rcases hv : f v with e | v'
          · rw [applyAtE, hv] at h
            exact absurd h (fun hh => Except.noConfusion hh)
          · rw [applyAtE, hv] at h
            replace h : Except.ok (v' :: vs) = Except.ok r' := h
            injection h with h
            subst h
            refine ⟨by simp, ?_, ?_⟩
            · intro k d hk
              cases k with
              | zero => exact absurd rfl hk
              | succ k' => rfl
            · intro _
              exact ⟨v', hv, rfl⟩
      | succ j' =>
          rcases hvs : applyAtE f j' vs with e | vs'
          · rw [applyAtE, hvs] at h
            exact absurd h (fun hh => Except.noConfusion hh)
          · rw [applyAtE, hvs] at h
            replace h : Except.ok (v :: vs') = Except.ok r' := h
            injection h with h
            subst h
            obtain ⟨ihl, ihne, iheq⟩ := ih j' vs' hvs
            refine ⟨by simpa using ihl, ?_, ?_⟩
            · intro k d hk
              cases k with
              | zero => rfl
              | succ k' => exact ihne k' d (by omega)
            · intro hj
              exact iheq (by simpa using hj)

theorem mapM_ok_forall₂ (g : List Cell → Except String (List Cell)) :
    ∀ (l l' : List (List Cell)), l.mapM g = Except.ok l' →
      List.Forall₂ (fun a b => g a = Except.ok b) l l' := by
  intro l
  induction l with
  | nil =>
      intro l' h
      rw [List.mapM_nil] at h
      cases h
      exact List.Forall₂.nil
  | cons a as ih =>
      intro l' h
      rw [List.mapM_cons] at h
      rcases ha : g a with e | b
      · rw [ha] at h
        exact absurd h (fun hh => Except.noConfusion hh)
      · rw [ha] at h
        rcases has : as.mapM g with e | bs
        · rw [has] at h
          exact absurd h (fun hh => Except.noConfusion hh)
        · rw [has] at h
          replace h : (Except.ok (b :: bs) : Except String (List (List Cell)))
              = Except.ok l' := h
          injection h with h
          subst h
          exact List.Forall₂.cons ha (ih bs has)

theorem charToNat_ofNat (n : Nat) (h : n < 55296) : (Char.ofNat n).toNat = n := by
  unfold Char.ofNat
  rw [dif_pos (Or.inl h)]
  simp [Char.ofNatAux, Char.toNat, UInt32.toNat]

theorem alnum_not_ws (c : Char) (h : c.isAlphanum = true) : c.isWhitespace = false := by
  by_contra hb
  rw [Bool.not_eq_false] at hb
  simp only [Char.isWhitespace, Bool.or_eq_true, decide_eq_true_eq] at hb
  rcases hb with ((h1 | h1) | h1) | h1 <;> subst h1 <;> exact absurd h (by decide)

theorem isLower_of_toNat (c : Char) (h1 : 97 ≤ c.toNat) (h2 : c.toNat ≤ 122) :
    c.isLower = true := by
  simp only [Char.isLower, ge_iff_le, Bool.and_eq_true, decide_eq_true_eq,
    Char.le_def, UInt32.le_def, BitVec.le_def]
  exact ⟨h1, h2⟩

theorem isUpper_of_toNat (c : Char) (h1 : 65 ≤ c.toNat) (h2 : c.toNat ≤ 90) :
    c.isUpper = true := by
  simp only [Char.isUpper, ge_iff_le, Bool.and_eq_true, decide_eq_true_eq,
    Char.le_def, UInt32.le_def, BitVec.le_def]
  exact ⟨h1, h2⟩

theorem toLower_alnum (c : Char) (h : c.isAlphanum = true) :
    (Char.toLower c).isAlphanum = true := by
  unfold Char.toLower
  dsimp only
  split
  case isTrue hin =>
      have ht : (Char.ofNat (c.toNat + 32)).toNat = c.toNat + 32 :=
        charToNat_ofNat _ (by omega)
      have : (Char.ofNat (c.toNat + 32)).isLower = true :=
        isLower_of_toNat _ (by omega) (by omega)
      simp [Char.isAlphanum, Char.isAlpha, this]
  case isFalse => exact h

theorem toUpper_alnum (c : Char) (h : c.isAlphanum = true) :
    (Char.toUpper c).isAlphanum = true := by
  unfold Char.toUpper
  dsimp only
  split
  case isTrue hin =>
      have ht : (Char.ofNat (c.toNat - 32)).toNat = c.toNat - 32 :=
        charToNat_ofNat _ (by omega)
      have : (Char.ofNat (c.toNat - 32)).isUpper = true :=
        isUpper_of_toNat _ (by omega) (by omega)
      simp [Char.isAlphanum, Char.isAlpha, this]
  case isFalse => exact h

theorem isDigit_of_toNat (c : Char) (h1 : 48 ≤ c.toNat) (h2 : c.toNat ≤ 57) :
    c.isDigit = true := by
  simp only [Char.isDigit, ge_iff_le, Bool.and_eq_true, decide_eq_true_eq,
    Char.le_def, UInt32.le_def, BitVec.le_def]
  exact ⟨h1, h2⟩

theorem digitCh_toNat (d : Nat) (h : d < 10) : (digitCh d).toNat = 48 + d :=
  charToNat_ofNat _ (by omega)

theorem digitCh_alnum (d : Nat) (h : d < 10) : (digitCh d).isAlphanum = true := by
  have hd : (digitCh d).isDigit = true := by
    refine isDigit_of_toNat _ ?_ ?_ <;> rw [digitCh_toNat d h] <;> omega
  simp [Char.isAlphanum, hd]

theorem natRepr_ne_empty (n : Nat) : natRepr n ≠ "" := by
  unfold natRepr
  split
  · decide
  case isFalse h =>
    intro hmk
    have hdata : ((Nat.digits 10 n).map digitCh).reverse = [] := congrArg String.data hmk
    simp only [List.reverse_eq_nil_iff, List.map_eq_nil_iff] at hdata
    exact absurd hdata (Nat.digits_ne_nil_iff_ne_zero.mpr h)

theorem natRepr_chars (n : Nat) : ∀ c ∈ (natRepr n).data, c.isAlphanum = true := by
  unfold natRepr
  split
  · decide
  · intro c hc
    simp only [List.mem_reverse, List.mem_map] at hc
    obtain ⟨d, hd, rfl⟩ := hc
    exact digitCh_alnum d (Nat.digits_lt_base (by omega) hd)

theorem map_digitCh_inj : ∀ (l1 l2 : List Nat), (∀ x ∈ l1, x < 10) → (∀ x ∈ l2, x < 10) →
    l1.map digitCh = l2.map digitCh → l1 = l2 := by
  intro l1
  induction l1 with
  | nil =>
      intro l2 _ _ h
      cases l2 with
      | nil => rfl
      | cons b bs => simp at h
  | cons a as ih =>
      intro l2 h1 h2 h
      cases l2 with
      | nil => simp at h
      | cons b bs =>
          simp only [List.map_cons, List.cons.injEq] at h
          obtain ⟨hab, hrest⟩ := h
          have ha : a < 10 := h1 a (by simp)
          have hb : b < 10 := h2 b (by simp)
          have hn : 48 + a = 48 + b := by
            rw [← digitCh_toNat a ha, ← digitCh_toNat b hb, hab]
          have : as = bs := ih bs (fun x hx => h1 x (by simp [hx]))
            (fun x hx => h2 x (by simp [hx])) hrest
          simp [this]
          omega

theorem natRepr_eq_zero_str {n : Nat} (h : natRepr n = "0") : n = 0 := by
  by_contra hn
  rw [natRepr, if_neg hn] at h
  have hdata : ((Nat.digits 10 n).map digitCh).reverse = ("0").data :=
    congrArg String.data h
  have hmap : (Nat.digits 10 n).map digitCh = ['0'] := by
    have := congrArg List.reverse hdata
    simpa using this
  rcases hdig : Nat.digits 10 n with _ | ⟨d, rest⟩
  · rw [hdig] at hmap
    simp at hmap
  · rw [hdig] at hmap
    simp only [List.map_cons, List.cons.injEq, List.map_eq_nil_iff] at hmap
    obtain ⟨hd0, hrest⟩ := hmap
    have hdlt : d < 10 := Nat.digits_lt_base (by omega) (by rw [hdig]; simp)
    have hdn : 48 + d = ('0').toNat := by rw [← digitCh_toNat d hdlt, hd0]
    have h48 : ('0').toNat = 48 := rfl
    rw [h48] at hdn
    have hd : d = 0 := by omega
    have hofd := Nat.ofDigits_digits 10 n
    rw [hdig, hd, hrest] at hofd
    simp [Nat.ofDigits] at hofd
    exact hn hofd.symm

theorem natRepr_inj {m n : Nat} (h : natRepr m = natRepr n) : m = n := by
  by_cases hm : m = 0 <;> by_cases hn : n = 0
  · rw [hm, hn]
  · subst hm
    rw [show natRepr 0 = "0" from rfl] at h
    exact absurd (natRepr_eq_zero_str h.symm) hn
  · subst hn
    rw [show natRepr 0 = "0" from rfl] at h
    exact absurd (natRepr_eq_zero_str h) hm
  · rw [natRepr, natRepr, if_neg hm, if_neg hn] at h
    have hdata := congrArg String.data h
    have hmap : (Nat.digits 10 m).map digitCh = (Nat.digits 10 n).map digitCh := by
      have := congrArg List.reverse hdata
      simpa using this
    have hdig := map_digitCh_inj _ _
      (fun x hx => Nat.digits_lt_base (by omega) hx)
      (fun x hx => Nat.digits_lt_base (by omega) hx) hmap
    exact Nat.digits.injective 10 hdig

theorem dropWhile_ne_nil_of_mem {p : Char → Bool} {l : List Char} {c : Char}
    (hc : c ∈ l) (hp : p c = false) : l.dropWhile p ≠ [] := by
  intro h
  rw [List.dropWhile_eq_nil_iff] at h
  have := h c hc
  rw [hp] at this
  cases this

theorem pyStrip_ne_empty (s : String) (c : Char) (hc : c ∈ s.data)
    (hnw : c.isWhitespace = false) : pyStrip s ≠ "" := by
  intro h
  have hdata : ((s.data.dropWhile Char.isWhitespace).reverse.dropWhile
      Char.isWhitespace).reverse = [] := congrArg String.data h
  rw [List.reverse_eq_nil_iff] at hdata
  have hsplit := List.takeWhile_append_dropWhile (p := Char.isWhitespace) (l := s.data)
  rw [← hsplit] at hc
  have hc1 : c ∈ s.data.dropWhile Char.isWhitespace := by
    rcases List.mem_append.mp hc with h1 | h1
    · have := List.mem_takeWhile_imp h1
      rw [hnw] at this
      cases this
    · exact h1
  exact dropWhile_ne_nil_of_mem (List.mem_reverse.mpr hc1) hnw hdata

theorem strTake_subset_chars (s : String) (n : Nat) (P : Char → Prop)
    (h : ∀ c ∈ s.data, P c) : ∀ c ∈ (strTake s n).data, P c :=
  fun c hc => h c (strTake_data_subset s n c hc)

theorem pyUpper_chars_alnum (s : String) (h : ∀ c ∈ s.data, c.isAlphanum = true) :
    ∀ c ∈ (pyUpper s).data, c.isAlphanum = true := by
  intro c hc
  rw [pyUpper] at hc
  rcases List.mem_map.mp hc with ⟨c', hc', rfl⟩
  exact toUpper_alnum c' (h c' hc')

theorem slugify_chars_alnum (s : String) : ∀ c ∈ (slugify s).data, c.isAlphanum = true := by
  intro c hc
  rw [slugify] at hc
  rcases List.mem_map.mp hc with ⟨c', hc', rfl⟩
  exact toLower_alnum c' (List.of_mem_filter hc')

theorem append_chars (s t : String) (P : Char → Prop)
    (hs : ∀ c ∈ s.data, P c) (ht : ∀ c ∈ t.data, P c) :
    ∀ c ∈ (s ++ t).data, P c := by
  intro c hc
  rw [String.data_append] at hc
  rcases List.mem_append.mp hc with h1 | h1
  · exact hs c h1
  · exact ht c h1

theorem append_natRepr_ne_empty (s : String) (n : Nat) : s ++ natRepr n ≠ "" := by
  intro h
  have hdata := congrArg String.data h
  rw [String.data_append] at hdata
  rcases List.append_eq_nil.mp hdata with ⟨_, h2⟩
  exact natRepr_ne_empty n (by apply String.ext; simpa using h2)

theorem string_append_cancel_left {s x y : String} (h : s ++ x = s ++ y) : x = y := by
  have hd := congrArg String.data h
  rw [String.data_append, String.data_append] at hd
  apply String.ext
  exact List.append_cancel_left hd

theorem exists_free_candidate (base12 : String) (E : List String) :
    ∃ k, 2 ≤ k ∧ k ≤ 2 + E.length ∧ base12 ++ natRepr k ∉ E := by
  by_contra hcon
  push_neg at hcon
  have hnd : ((List.range (E.length + 1)).map
      (fun j => base12 ++ natRepr (j + 2))).Nodup := by
    refine List.Nodup.map ?_ (List.nodup_range _)
    intro a b hab
    have := natRepr_inj (string_append_cancel_left hab)
    omega
  have hsub : ((List.range (E.length + 1)).map
      (fun j => base12 ++ natRepr (j + 2))) ⊆ E := by
    intro s hs
    rcases List.mem_map.mp hs with ⟨j, hj, rfl⟩
    have hjlt : j < E.length + 1 := List.mem_range.mp hj
    exact hcon (j + 2) (by omega) (by omega)
  have hle := (List.subperm_of_subset hnd hsub).length_le
  simp at hle

theorem autoIdLoop_spec (base12 : String) (E : List String) :
    ∀ (fuel n : Nat), (∃ k, n ≤ k ∧ k ≤ n + fuel ∧ base12 ++ natRepr k ∉ E) →
      autoIdLoop base12 fuel n E ∉ E ∧
      ∃ k, autoIdLoop base12 fuel n E = base12 ++ natRepr k := by
  intro fuel
  induction fuel with
  | zero =>
      rintro n ⟨k, h1, h2, h3⟩
      have hk : k = n := by omega
      subst hk
      exact ⟨h3, k, rfl⟩
  | succ f ih =>
      rintro n ⟨k, h1, h2, h3⟩
      simp only [autoIdLoop]
      by_cases hc : base12 ++ natRepr n ∈ E
      · rw [if_pos hc]
        have hkn : k ≠ n := fun he => h3 (he ▸ hc)
        exact ih (n+1) ⟨k, by omega, by omega, h3⟩
      · rw [if_neg hc]
        exact ⟨hc, n, rfl⟩

theorem pickAutoId_spec (name : String) (i : Nat) (E : List String) :
    pickAutoId name i E ∉ E ∧
    pickAutoId name i E ≠ "" ∧
    (∀ c ∈ (pickAutoId name i E).data, c.isAlphanum = true) := by
  have hPKG : ∀ c ∈ ("PKG" ++ natRepr i).data, c.isAlphanum = true :=
    append_chars _ _ _ (by decide) (natRepr_chars i)
  have hpkg : ∀ c ∈ ("pkg" ++ natRepr i).data, c.isAlphanum = true :=
    append_chars _ _ _ (by decide) (natRepr_chars i)
  simp only [pickAutoId]
  set base := if slugify name = "" then "pkg" ++ natRepr i else slugify name with hbase
  have hbchars : ∀ c ∈ base.data, c.isAlphanum = true := by
    rw [hbase]
    split
    · exact hpkg
    · exact slugify_chars_alnum name
  have hupchars : ∀ n, ∀ c ∈ (strTake (pyUpper base) n).data, c.isAlphanum = true :=
    fun n => strTake_subset_chars _ n _ (pyUpper_chars_alnum _ hbchars)
  set c0 := if strTake (pyUpper base) 16 = "" then "PKG" ++ natRepr i
            else strTake (pyUpper base) 16 with hc0def
  have hc0chars : ∀ c ∈ c0.data, c.isAlphanum = true := by
    rw [hc0def]
    split
    · exact hPKG
    · exact hupchars 16
  have hc0ne : c0 ≠ "" := by
    rw [hc0def]
    split
    · exact append_natRepr_ne_empty _ i
    case isFalse h => exact h
  by_cases hmem : c0 ∈ E
  · rw [if_pos hmem]
    obtain ⟨k, hk1, hk2, hk3⟩ := exists_free_candidate (strTake (pyUpper base) 12) E
    obtain ⟨hnot, k', hform⟩ := autoIdLoop_spec (strTake (pyUpper base) 12) E
      (E.length + 1) 2 ⟨k, hk1, by omega, hk3⟩
    refine ⟨hnot, ?_, ?_⟩
    · rw [hform]
      exact append_natRepr_ne_empty _ k'
    · rw [hform]
      exact append_chars _ _ _ (hupchars 12) (natRepr_chars k')
  · rw [if_neg hmem]
    exact ⟨hmem, hc0ne, hc0chars⟩

theorem str_data_ne_nil {s : String} (h : s ≠ "") : s.data ≠ [] := by
  intro hd
  exact h (String.ext (by simpa using hd))

theorem pickAutoId_strip_ne (name : String) (i : Nat) (E : List String) :
    pyStrip (pickAutoId name i E) ≠ "" := by
  obtain ⟨_, hne, hchars⟩ := pickAutoId_spec name i E
  rcases hd : (pickAutoId name i E).data with _ | ⟨c, rest⟩
  · exact absurd hd (str_data_ne_nil hne)
  · refine pyStrip_ne_empty _ c (by rw [hd]; simp) ?_
    exact alnum_not_ws c (hchars c (by rw [hd]; simp))

theorem getD_set_self (v : Cell) (j : Nat) (r : List Cell) (d : Cell)
    (hj : j < r.length) : (r.set j v).getD j d = v := by
  induction r generalizing j with
  | nil => simp at hj
  | cons x xs ih =>
      cases j with
      | zero => rfl
      | succ j' => simpa [List.set] using ih j' (by simpa using hj)

theorem getD_set_ne (v : Cell) (j k : Nat) (r : List Cell) (d : Cell)
    (hk : k ≠ j) : (r.set j v).getD k d = r.getD k d := by
  induction r generalizing j k with
  | nil => rfl
  | cons x xs ih =>
      cases j with
      | zero =>
          cases k with
          | zero => exact absurd rfl hk
          | succ k' => rfl
      | succ j' =>
          cases k with
          | zero => rfl
          | succ k' => simpa [List.set] using ih j' k' (by omega)

theorem assignRows_main (idI nameI : Nat) :
    ∀ (rows : List (List Cell)) (i : Nat) (E : List String),
      (∀ s ∈ idsOf idI rows, s ∈ E) →
      ((idsOf idI rows).filter (fun s => pyStrip s != "")).Nodup →
      (∀ r ∈ rows, idI < r.length) →
      (idsOf idI (assignRows idI nameI i E rows)).Nodup ∧
      (∀ s ∈ idsOf idI (assignRows idI nameI i E rows),
          (s ∈ idsOf idI rows ∧ pyStrip s ≠ "") ∨ s ∉ E) ∧
      (∀ s ∈ idsOf idI (assignRows idI nameI i E rows), pyStrip s ≠ "") ∧
      (∀ r' ∈ assignRows idI nameI i E rows,
          (∃ r, r ∈ rows ∧ r' = r ∧ pyStrip (cellAstype (r.getD idI Cell.NA)) ≠ "") ∨
          (∃ r, r ∈ rows ∧ ∃ sId, r' = r.set idI (Cell.str sId) ∧ pyStrip sId ≠ "")) := by
  intro rows
  induction rows with
  | nil =>
      intro i E _ _ _
      refine ⟨by simp [assignRows, idsOf], by simp [assignRows, idsOf],
        by simp [assignRows, idsOf], by simp [assignRows]⟩
  | cons r rs ih =>
      intro i E hcover hdist hlen
      have hids_cons : idsOf idI (r :: rs) = cellAstype (r.getD idI Cell.NA) :: idsOf idI rs :=
        rfl
      by_cases hneed : pyStrip (cellAstype (r.getD idI Cell.NA)) = ""
      · -- auto-assignment branch
        simp only [assignRows, if_pos hneed]
        obtain ⟨hfE, hfne, _⟩ := pickAutoId_spec (cellAstype (r.getD nameI Cell.NA)) i E
        have hfstrip := pickAutoId_strip_ne (cellAstype (r.getD nameI Cell.NA)) i E
        have hcover' : ∀ s ∈ idsOf idI rs,
            s ∈ pickAutoId (cellAstype (r.getD nameI Cell.NA)) i E :: E :=
          fun s hs => List.mem_cons_of_mem _
            (hcover s (by rw [hids_cons]; exact List.mem_cons_of_mem _ hs))
        have hdist' : ((idsOf idI rs).filter (fun s => pyStrip s != "")).Nodup := by
          rw [hids_cons, List.filter_cons, if_neg (by rw [hneed]; simp)] at hdist
          exact hdist
        have hlen' : ∀ x ∈ rs, idI < x.length :=
          fun x hx => hlen x (List.mem_cons_of_mem _ hx)
        obtain ⟨ihnd, ihmem, ihstrip, ihcases⟩ :=
          ih (i+1) (pickAutoId (cellAstype (r.getD nameI Cell.NA)) i E :: E)
            hcover' hdist' hlen'
        have hhead : (r.set idI (Cell.str
              (pickAutoId (cellAstype (r.getD nameI Cell.NA)) i E))).getD idI Cell.NA
            = Cell.str (pickAutoId (cellAstype (r.getD nameI Cell.NA)) i E) :=
          getD_set_self _ _ _ _ (hlen r (List.mem_cons_self _ _))
        refine ⟨?_, ?_, ?_, ?_⟩
        · rw [show idsOf idI (r.set idI (Cell.str
              (pickAutoId (cellAstype (r.getD nameI Cell.NA)) i E))
                :: assignRows idI nameI (i+1)
                  (pickAutoId (cellAstype (r.getD nameI Cell.NA)) i E :: E) rs)
              = cellAstype ((r.set idI (Cell.str
                  (pickAutoId (cellAstype (r.getD nameI Cell.NA)) i E))).getD idI Cell.NA)
                :: idsOf idI (assignRows idI nameI (i+1)
                  (pickAutoId (cellAstype (r.getD nameI Cell.NA)) i E :: E) rs) from rfl]
          rw [hhead]
          refine List.nodup_cons.mpr ⟨?_, ihnd⟩
          intro hmem
          rcases ihmem _ hmem with ⟨hin, _⟩ | hnotin
          · exact hfE (hcover _ (by rw [hids_cons]; exact List.mem_cons_of_mem _ hin))
          · exact hnotin (List.mem_cons_self _ _)
        · intro s hs
          rw [show idsOf idI (r.set idI (Cell.str
                (pickAutoId (cellAstype (r.getD nameI Cell.NA)) i E))
                  :: assignRows idI nameI (i+1)
                    (pickAutoId (cellAstype (r.getD nameI Cell.NA)) i E :: E) rs)
              = cellAstype ((r.set idI (Cell.str
                  (pickAutoId (cellAstype (r.getD nameI Cell.NA)) i E))).getD idI Cell.NA)
                :: idsOf idI (assignRows idI nameI (i+1)
                  (pickAutoId (cellAstype (r.getD nameI Cell.NA)) i E :: E) rs) from rfl,
            hhead] at hs
          rcases List.mem_cons.mp hs with rfl | hs'
          · exact Or.inr hfE
          · rcases ihmem s hs' with ⟨hin, hstrip⟩ | hnotin
            · exact Or.inl ⟨by
                rw [hids_cons]
                exact List.mem_cons_of_mem _ hin, hstrip⟩
            · exact Or.inr (fun hE => hnotin (List.mem_cons_of_mem _ hE))
        · intro s hs
          rw [show idsOf idI (r.set idI (Cell.str
                (pickAutoId (cellAstype (r.getD nameI Cell.NA)) i E))
                  :: assignRows idI nameI (i+1)
                    (pickAutoId (cellAstype (r.getD nameI Cell.NA)) i E :: E) rs)
              = cellAstype ((r.set idI (Cell.str
                  (pickAutoId (cellAstype (r.getD nameI Cell.NA)) i E))).getD idI Cell.NA)
                :: idsOf idI (assignRows idI nameI (i+1)
                  (pickAutoId (cellAstype (r.getD nameI Cell.NA)) i E :: E) rs) from rfl,
            hhead] at hs
          rcases List.mem_cons.mp hs with rfl | hs'
          · exact hfstrip
          · exact ihstrip s hs'
        · intro r' hr'
          rcases List.mem_cons.mp hr' with rfl | hr''
          · exact Or.inr ⟨r, List.mem_cons_self _ _,
              pickAutoId (cellAstype (r.getD nameI Cell.NA)) i E, rfl, hfstrip⟩
          · rcases ihcases r' hr'' with ⟨p, hp, he, hstr⟩ | ⟨p, hp, sId, he, hstr⟩
            · exact Or.inl ⟨p, List.mem_cons_of_mem _ hp, he, hstr⟩
            · exact Or.inr ⟨p, List.mem_cons_of_mem _ hp, sId, he, hstr⟩
      · -- supplied-id branch: the row is kept unchanged
        simp only [assignRows, if_neg hneed]
        have hs0E : cellAstype (r.getD idI Cell.NA) ∈ E := by
          refine hcover _ ?_
          rw [hids_cons]
          exact List.mem_cons_self _ _
        have hdist2 := hdist
        rw [hids_cons, List.filter_cons, if_pos (by simpa using hneed)] at hdist2
        obtain ⟨hnotinF, hdist'⟩ := List.nodup_cons.mp hdist2
        have hcover' : ∀ s ∈ idsOf idI rs, s ∈ E := fun s hs => by
          refine hcover s ?_
          rw [hids_cons]
          exact List.mem_cons_of_mem _ hs
        have hlen' : ∀ x ∈ rs, idI < x.length :=
          fun x hx => hlen x (List.mem_cons_of_mem _ hx)
        obtain ⟨ihnd, ihmem, ihstrip, ihcases⟩ := ih (i+1) E hcover' hdist' hlen'
        have hconsR : idsOf idI (r :: assignRows idI nameI (i+1) E rs)
            = cellAstype (r.getD idI Cell.NA)
              :: idsOf idI (assignRows idI nameI (i+1) E rs) := rfl
        refine ⟨?_, ?_, ?_, ?_⟩
        · rw [hconsR]
          refine List.nodup_cons.mpr ⟨?_, ihnd⟩
          intro hmem
          rcases ihmem _ hmem with ⟨hin, hstrip⟩ | hnotin
          · exact hnotinF (List.mem_filter.mpr ⟨hin, by simpa using hstrip⟩)
          · exact hnotin hs0E
        · intro s hs
          rw [hconsR] at hs
          rcases List.mem_cons.mp hs with rfl | hs'
          · refine Or.inl ⟨?_, hneed⟩
            rw [hids_cons]
            exact List.mem_cons_self _ _
          · rcases ihmem s hs' with ⟨hin, hstrip⟩ | hnotin
            · refine Or.inl ⟨?_, hstrip⟩
              rw [hids_cons]
              exact List.mem_cons_of_mem _ hin
            · exact Or.inr hnotin
        · intro s hs
          rw [hconsR] at hs
          rcases List.mem_cons.mp hs with rfl | hs'
          · exact hneed
          · exact ihstrip s hs'
        · intro r' hr'
          rcases List.mem_cons.mp hr' with heq | hr''
          · exact Or.inl ⟨r, List.mem_cons_self _ _, heq, hneed⟩
          · rcases ihcases r' hr'' with ⟨p, hp, he, hstr⟩ | ⟨p, hp, sId, he, hstr⟩
            · exact Or.inl ⟨p, List.mem_cons_of_mem _ hp, he, hstr⟩
            · exact Or.inr ⟨p, List.mem_cons_of_mem _ hp, sId, he, hstr⟩

theorem contains_true_iff_mem {l : List String} {c : String} :
    l.contains c = true ↔ c ∈ l := by
  simp [List.contains]

theorem addCol_spec (df : DataFrame) (c : String) (v : Cell) :
    ∃ ext t, (addColIfMissing df c v).cols = df.cols ++ ext ∧
      (addColIfMissing df c v).rows = df.rows.map (fun r => r ++ t) ∧
      ext.length = t.length := by
  by_cases h : df.cols.contains c
  · have hm : c ∈ df.cols := contains_true_iff_mem.mp h
    refine ⟨[], [], by simp [addColIfMissing, h, hm], ?_, rfl⟩
    simp [addColIfMissing, h, hm]
  · have hm : c ∉ df.cols := fun hmm => h (contains_true_iff_mem.mpr hmm)
    exact ⟨[c], [v], by simp [addColIfMissing, h, hm], by simp [addColIfMissing, h, hm], rfl⟩

theorem addCol_mem_self (df : DataFrame) (c : String) (v : Cell) :
    c ∈ (addColIfMissing df c v).cols := by
  by_cases h : df.cols.contains c
  · rw [addColIfMissing, if_pos h]
    exact contains_true_iff_mem.mp h
  · rw [addColIfMissing, if_neg h]
    simp

theorem addCol_mem_mono (df : DataFrame) (c c' : String) (v : Cell)
    (h : c' ∈ df.cols) : c' ∈ (addColIfMissing df c v).cols := by
  by_cases hc : df.cols.contains c
  · rwa [addColIfMissing, if_pos hc]
  · rw [addColIfMissing, if_neg hc]
    exact List.mem_append_left _ h

theorem ensureCols_spec (df : DataFrame) :
    ∃ ext t, (ensureCols df).cols = df.cols ++ ext ∧
      (ensureCols df).rows = df.rows.map (fun r => r ++ t) ∧
      ext.length = t.length := by
  obtain ⟨e1, t1, hc1, hr1, hl1⟩ := addCol_spec df "id" (Cell.str "")
  obtain ⟨e2, t2, hc2, hr2, hl2⟩ :=
    addCol_spec (addColIfMissing df "id" (Cell.str "")) "name" (Cell.str "")
  obtain ⟨e3, t3, hc3, hr3, hl3⟩ :=
    addCol_spec (addColIfMissing (addColIfMissing df "id" (Cell.str "")) "name"
      (Cell.str "")) "price" (Cell.num 0)
  obtain ⟨e4, t4, hc4, hr4, hl4⟩ :=
    addCol_spec (addColIfMissing (addColIfMissing (addColIfMissing df "id" (Cell.str ""))
      "name" (Cell.str "")) "price" (Cell.num 0)) "active" (Cell.bool true)
  obtain ⟨e5, t5, hc5, hr5, hl5⟩ :=
    addCol_spec (addColIfMissing (addColIfMissing (addColIfMissing (addColIfMissing df
      "id" (Cell.str "")) "name" (Cell.str "")) "price" (Cell.num 0)) "active"
      (Cell.bool true)) "note" (Cell.str "")
  refine ⟨e1 ++ e2 ++ e3 ++ e4 ++ e5, t1 ++ t2 ++ t3 ++ t4 ++ t5, ?_, ?_, ?_⟩
  · rw [ensureCols, hc5, hc4, hc3, hc2, hc1]
    simp [List.append_assoc]
  · rw [ensureCols, hr5, hr4, hr3, hr2, hr1]
    simp [List.map_map, Function.comp_def, List.append_assoc]
  · simp [hl1, hl2, hl3, hl4, hl5]

theorem ensureCols_mem (df : DataFrame) :
    "id" ∈ (ensureCols df).cols ∧ "name" ∈ (ensureCols df).cols ∧
    "price" ∈ (ensureCols df).cols ∧ "active" ∈ (ensureCols df).cols ∧
    "note" ∈ (ensureCols df).cols := by
  rw [ensureCols]
  refine ⟨?_, ?_, ?_, ?_, ?_⟩
  · exact addCol_mem_mono _ _ _ _ (addCol_mem_mono _ _ _ _ (addCol_mem_mono _ _ _ _
      (addCol_mem_mono _ _ _ _ (addCol_mem_self _ _ _))))
  · exact addCol_mem_mono _ _ _ _ (addCol_mem_mono _ _ _ _ (addCol_mem_mono _ _ _ _
      (addCol_mem_self _ _ _)))
  · exact addCol_mem_mono _ _ _ _ (addCol_mem_mono _ _ _ _ (addCol_mem_self _ _ _))
  · exact addCol_mem_mono _ _ _ _ (addCol_mem_self _ _ _)
  · exact addCol_mem_self _ _ _

theorem ensureCols_rect (df : DataFrame) (hrect : df.Rect) : (ensureCols df).Rect := by
  obtain ⟨ext, t, hc, hr, hl⟩ := ensureCols_spec df
  intro r hr'
  rw [hr] at hr'
  rcases List.mem_map.mp hr' with ⟨r0, hr0, rfl⟩
  rw [hc]
  simp [hrect r0 hr0, hl]

theorem indexOf_ne_of_mem_ne {l : List String} {c c' : String}
    (hc' : c' ∈ l) (hne : c' ≠ c) : l.indexOf c' ≠ l.indexOf c := by
  by_cases hcmem : c ∈ l
  · intro he
    have hj : l.indexOf c' < l.length := List.indexOf_lt_length.mpr hc'
    have hk : l.indexOf c < l.length := List.indexOf_lt_length.mpr hcmem
    have h1 : l[l.indexOf c']? = some c' := by
      rw [List.getElem?_eq_getElem hj, List.getElem_indexOf hj]
    have h2 : l[l.indexOf c]? = some c := by
      rw [List.getElem?_eq_getElem hk, List.getElem_indexOf hk]
    rw [he, h2] at h1
    exact hne (Option.some.inj h1).symm
  · have hk : l.indexOf c = l.length := List.indexOf_eq_length.mpr hcmem
    have hj : l.indexOf c' < l.length := List.indexOf_lt_length.mpr hc'
    omega

theorem mapCol_cols (df : DataFrame) (c : String) (f : Cell → Cell) :
    (mapCol df c f).cols = df.cols := rfl

theorem mapCol_rect (df : DataFrame) (c : String) (f : Cell → Cell) (hrect : df.Rect) :
    (mapCol df c f).Rect := by
  intro r hr
  rcases List.mem_map.mp hr with ⟨r0, hr0, rfl⟩
  rw [mapCol_cols, applyAt_length]
  exact hrect r0 hr0

theorem mapCol_col_untouched (df : DataFrame) (c c' : String) (f : Cell → Cell)
    (hne : c' ≠ c) (hc' : c' ∈ df.cols) :
    (mapCol df c f).rows.map
        (fun r => r.getD ((mapCol df c f).cols.indexOf c') Cell.NA)
      = df.rows.map (fun r => r.getD (df.cols.indexOf c') Cell.NA) := by
  rw [mapCol_cols]
  show (df.rows.map (applyAt f (df.cols.indexOf c))).map _ = _
  rw [List.map_map]
  refine List.map_congr_left ?_
  intro r _
  exact applyAt_getD_ne f _ _ r Cell.NA (indexOf_ne_of_mem_ne hc' hne)

theorem coerceActive_spec (df df4 : DataFrame) (hok : coerceActive df = Except.ok df4) :
    df4.cols = df.cols ∧
    List.Forall₂ (fun r r' => applyAtE (fun c => (astypeBoolCell c).map Cell.bool)
        (df.cols.indexOf "active") r = Except.ok r') df.rows df4.rows := by
  rw [coerceActive] at hok
  rcases hm : df.rows.mapM
      (applyAtE (fun c => (astypeBoolCell c).map Cell.bool) (df.cols.indexOf "active"))
    with e | rows'
  · rw [hm] at hok
    exact absurd hok (fun hh => Except.noConfusion hh)
  · rw [hm] at hok
    replace hok : Except.ok (DataFrame.mk df.cols rows') = Except.ok df4 := hok
    injection hok with hok
    subst hok
    exact ⟨rfl, mapM_ok_forall₂ _ _ _ hm⟩

theorem forall₂_map_eq {R : List Cell → List Cell → Prop}
    {l1 l2 : List (List Cell)} (h : List.Forall₂ R l1 l2)
    (f g : List Cell → Cell) (hfg : ∀ a b, R a b → g b = f a) :
    l2.map g = l1.map f := by
  induction h with
  | nil => rfl
  | cons hR _ ih => simp [ih, hfg _ _ hR]

theorem coerceActive_col_untouched (df df4 : DataFrame) (c' : String)
    (hok : coerceActive df = Except.ok df4) (hne : c' ≠ "active") (hc' : c' ∈ df.cols) :
    df4.rows.map (fun r => r.getD (df4.cols.indexOf c') Cell.NA)
      = df.rows.map (fun r => r.getD (df.cols.indexOf c') Cell.NA) := by
  obtain ⟨hcols, hfa⟩ := coerceActive_spec df df4 hok
  rw [hcols]
  refine forall₂_map_eq hfa _ _ ?_
  intro a b hab
  obtain ⟨_, hne', _⟩ := applyAtE_ok _ _ _ _ hab
  exact hne' _ Cell.NA (indexOf_ne_of_mem_ne hc' hne)

theorem coerceActive_rect (df df4 : DataFrame) (hok : coerceActive df = Except.ok df4)
    (hrect : df.Rect) : df4.Rect := by
  obtain ⟨hcols, hfa⟩ := coerceActive_spec df df4 hok
  intro r hr
  rw [hcols]
  rcases List.forall₂_iff_get.mp hfa with ⟨hlen, hget⟩
  rcases List.mem_iff_get.mp hr with ⟨⟨i, hi⟩, rfl⟩
  have hi' : i < df.rows.length := by omega
  have := hget i hi' hi
  obtain ⟨hl, _, _⟩ := applyAtE_ok _ _ _ _ this
  rw [List.get_eq_getElem] at hl ⊢
  rw [hl]
  exact hrect _ (List.getElem_mem hi')

theorem coerceActive_length (df df4 : DataFrame) (hok : coerceActive df = Except.ok df4) :
    df4.rows.length = df.rows.length :=
  ((coerceActive_spec df df4 hok).2.length_eq).symm

theorem addCol_rect (df : DataFrame) (c : String) (v : Cell) (hrect : df.Rect) :
    (addColIfMissing df c v).Rect := by
  obtain ⟨ext, t, hc, hr, hl⟩ := addCol_spec df c v
  intro r hr'
  rw [hr] at hr'
  rcases List.mem_map.mp hr' with ⟨r0, hr0, rfl⟩
  rw [hc]
  simp [hrect r0 hr0, hl]

theorem addCol_col_untouched (df : DataFrame) (c c' : String) (v : Cell)
    (hc' : c' ∈ df.cols) (hrect : df.Rect) :
    (addColIfMissing df c v).rows.map
        (fun r => r.getD ((addColIfMissing df c v).cols.indexOf c') Cell.NA)
      = df.rows.map (fun r => r.getD (df.cols.indexOf c') Cell.NA) := by
  by_cases h : df.cols.contains c
  · rw [addColIfMissing, if_pos h]
  · rw [addColIfMissing, if_neg h]
    show (df.rows.map (fun r => r ++ [v])).map _ = _
    rw [List.map_map]
    refine List.map_congr_left ?_
    intro r hr
    have hidx : (df.cols ++ [c]).indexOf c' = df.cols.indexOf c' :=
      List.indexOf_append_of_mem hc'
    simp only [Function.comp_def, hidx]
    exact List.getD_append _ _ _ _ (by rw [hrect r hr]; exact List.indexOf_lt_length.mpr hc')

theorem ensureCols_col_untouched (df : DataFrame) (c' : String)
    (hc' : c' ∈ df.cols) (hrect : df.Rect) :
    (ensureCols df).rows.map
        (fun r => r.getD ((ensureCols df).cols.indexOf c') Cell.NA)
      = df.rows.map (fun r => r.getD (df.cols.indexOf c') Cell.NA) := by
  rw [ensureCols]
  have m1 := addCol_mem_mono df "id" c' (Cell.str "") hc'
  have r1 := addCol_rect df "id" (Cell.str "") hrect
  have m2 := addCol_mem_mono _ "name" c' (Cell.str "") m1
  have r2 := addCol_rect _ "name" (Cell.str "") r1
  have m3 := addCol_mem_mono _ "price" c' (Cell.num 0) m2
  have r3 := addCol_rect _ "price" (Cell.num 0) r2
  have m4 := addCol_mem_mono _ "active" c' (Cell.bool true) m3
  have r4 := addCol_rect _ "active" (Cell.bool true) r3
  rw [addCol_col_untouched _ "note" c' (Cell.str "") m4 r4,
    addCol_col_untouched _ "active" c' (Cell.bool true) m3 r3,
    addCol_col_untouched _ "price" c' (Cell.num 0) m2 r2,
    addCol_col_untouched _ "name" c' (Cell.str "") m1 r1,
    addCol_col_untouched _ "id" c' (Cell.str "") hc' hrect]

theorem addCol_col_new (df : DataFrame) (c : String) (v : Cell)
    (h : ¬ df.cols.contains c = true) (hrect : df.Rect) :
    (addColIfMissing df c v).rows.map
        (fun r => r.getD ((addColIfMissing df c v).cols.indexOf c) Cell.NA)
      = List.replicate df.rows.length v := by
  rw [addColIfMissing, if_neg h]
  have hm : c ∉ df.cols := fun hmm => h (contains_true_iff_mem.mpr hmm)
  show (df.rows.map (fun r => r ++ [v])).map _ = _
  rw [List.map_map]
  have hidx : (df.cols ++ [c]).indexOf c = df.cols.length + [c].indexOf c :=
    List.indexOf_append_of_not_mem hm
  have : ∀ r ∈ df.rows, ((fun r => r.getD ((df.cols ++ [c]).indexOf c) Cell.NA) ∘
      (fun r => r ++ [v])) r = v := by
    intro r hr
    simp only [Function.comp_def, hidx]
    have hlen : df.cols.length = r.length := (hrect r hr).symm
    rw [show [c].indexOf c = 0 from by simp, Nat.add_zero, hlen]
    rw [List.getD_eq_getElem?_getD, List.getElem?_append_right (by omega)]
    simp
  calc (df.rows.map ((fun r => r.getD ((df.cols ++ [c]).indexOf c) Cell.NA) ∘
          (fun r => r ++ [v])))
      = df.rows.map (fun _ => v) := List.map_congr_left this
    _ = List.replicate df.rows.length v := List.map_const' _ _

theorem ensureCols_id_col (df : DataFrame) (hrect : df.Rect) :
    (ensureCols df).rows.map
        (fun r => r.getD ((ensureCols df).cols.indexOf "id") Cell.NA)
      = (if "id" ∈ df.cols then df.col "id"
         else List.replicate df.rows.length (Cell.str "")) := by
  by_cases hm : "id" ∈ df.cols
  · rw [if_pos hm, DataFrame.col, if_pos hm]
    exact ensureCols_col_untouched df "id" hm hrect
  · rw [if_neg hm, ensureCols]
    have h0 : ¬ df.cols.contains "id" = true := fun hc => hm (contains_true_iff_mem.mp hc)
    have mA : "id" ∈ (addColIfMissing df "id" (Cell.str "")).cols := addCol_mem_self _ _ _
    have rA := addCol_rect df "id" (Cell.str "") hrect
    have m2 := addCol_mem_mono _ "name" "id" (Cell.str "") mA
    have r2 := addCol_rect _ "name" (Cell.str "") rA
    have m3 := addCol_mem_mono _ "price" "id" (Cell.num 0) m2
    have r3 := addCol_rect _ "price" (Cell.num 0) r2
    have m4 := addCol_mem_mono _ "active" "id" (Cell.bool true) m3
    have r4 := addCol_rect _ "active" (Cell.bool true) r3
    rw [addCol_col_untouched _ "note" "id" (Cell.str "") m4 r4,
      addCol_col_untouched _ "active" "id" (Cell.bool true) m3 r3,
      addCol_col_untouched _ "price" "id" (Cell.num 0) m2 r2,
      addCol_col_untouched _ "name" "id" (Cell.str "") mA rA,
      addCol_col_new df "id" (Cell.str "") h0 hrect]

theorem pipeline_id_col (df df4 : DataFrame) (hrect : df.Rect)
    (hok : coerceActive (mapCol (mapCol (ensureCols df) "name"
        (fun c => Cell.str (pyStrip (cellAstype c)))) "price"
        (fun c => Cell.num ((toNumericCell c).getD 0))) = Except.ok df4) :
    df4.rows.map (fun r => r.getD (df4.cols.indexOf "id") Cell.NA)
      = (if "id" ∈ df.cols then df.col "id"
         else List.replicate df.rows.length (Cell.str "")) := by
  obtain ⟨hid1, hname1, hprice1, hactive1, hnote1⟩ := ensureCols_mem df
  have h1 := mapCol_col_untouched (ensureCols df) "name" "id"
    (fun c => Cell.str (pyStrip (cellAstype c))) (by decide) hid1
  have h2 := mapCol_col_untouched (mapCol (ensureCols df) "name"
      (fun c => Cell.str (pyStrip (cellAstype c)))) "price" "id"
    (fun c => Cell.num ((toNumericCell c).getD 0)) (by decide) hid1
  have h3 := coerceActive_col_untouched _ df4 "id" hok (by decide) hid1
  exact h3.trans (h2.trans (h1.trans (ensureCols_id_col df hrect)))

theorem ensure_packages_ok_cases (df out : DataFrame)
    (hok : ensure_packages_df df = Except.ok out) :
    ((df.isEmpty || !(df.cols.contains "name")) = true ∧ out = defaultPackagesDF) ∨
    ((df.isEmpty || !(df.cols.contains "name")) = false ∧
     ∃ df4, coerceActive (mapCol (mapCol (ensureCols df) "name"
         (fun c => Cell.str (pyStrip (cellAstype c)))) "price"
         (fun c => Cell.num ((toNumericCell c).getD 0))) = Except.ok df4 ∧
       out = filterNamed (assignIds df4)) := by
  rw [ensure_packages_df] at hok
  by_cases hcond : (df.isEmpty || !(df.cols.contains "name")) = true
  · rw [if_pos hcond] at hok
    replace hok : Except.ok defaultPackagesDF = Except.ok out := hok
    injection hok with hok
    exact Or.inl ⟨hcond, hok.symm⟩
  · rw [if_neg hcond] at hok
    replace hok : (coerceActive (mapCol (mapCol (ensureCols df) "name"
        (fun c => Cell.str (pyStrip (cellAstype c)))) "price"
        (fun c => Cell.num ((toNumericCell c).getD 0)))
          >>= fun df4 => pure (filterNamed (assignIds df4))) = Except.ok out := hok
    rcases hc : coerceActive (mapCol (mapCol (ensureCols df) "name"
        (fun c => Cell.str (pyStrip (cellAstype c)))) "price"
        (fun c => Cell.num ((toNumericCell c).getD 0))) with e | df4
    · rw [hc] at hok
      exact absurd hok (fun hh => Except.noConfusion hh)
    · rw [hc] at hok
      replace hok : Except.ok (filterNamed (assignIds df4)) = Except.ok out := hok
      injection hok with hok
      exact Or.inr ⟨by simpa using hcond, df4, rfl, hok.symm⟩

/-- C1 counterexample: the claim promises that every pair of output rows —
    rows with supplied ids included — carries distinct ids.  A raw table with
    two rows both supplying id "X" is returned with both ids still "X": the
    auto-ID loop only guards ids that are blank after trimming and never
    deduplicates supplied ids. -/
theorem c1_counterexample :
    ensure_packages_df ⟨["id", "name"], [[Cell.str "X", Cell.str "A"],
        [Cell.str "X", Cell.str "B"]]⟩
      = Except.ok ⟨["id", "name", "price", "active", "note"],
          [[Cell.str "X", Cell.str "A", Cell.num 0, Cell.bool true, Cell.str ""],
           [Cell.str "X", Cell.str "B", Cell.num 0, Cell.bool true, Cell.str ""]]⟩ ∧
    ¬ ((DataFrame.mk ["id", "name", "price", "active", "note"]
          [[Cell.str "X", Cell.str "A", Cell.num 0, Cell.bool true, Cell.str ""],
           [Cell.str "X", Cell.str "B", Cell.num 0, Cell.bool true, Cell.str ""]]).col
        "id").Nodup := by
  constructor
  · rfl
  · decide

/-- C1 (amended): on any raw table whose id cells are all plain strings and
    whose non-blank supplied ids are pairwise distinct — which the code does
    not itself enforce — every row of the normalized catalog has a string id
    that is non-empty after trimming, and the output ids are pairwise
    distinct; without that proviso duplicate supplied ids survive unchanged
    (see the counterexample).  Blank-after-trim ids are replaced by fresh
    auto ids that avoid the astype(str) image of every supplied id and all
    earlier auto ids of the same pass. -/
theorem c1_amended (df out : DataFrame)
    (hrect : df.Rect) (hnodup : df.cols.Nodup)
    (hids : ∀ c ∈ df.col "id", isStrCell c = true)
    (hdist : (((df.col "id").map cellAstype).filter (fun s => pyStrip s != "")).Nodup)
    (hok : ensure_packages_df df = Except.ok out) :
    (∀ c ∈ out.col "id", isStrCell c = true ∧ pyStrip (cellAstype c) ≠ "") ∧
    ((out.col "id").map cellAstype).Nodup := by
  rcases ensure_packages_ok_cases df out hok with ⟨_, rfl⟩ | ⟨hcond, df4, hc4, rfl⟩
  · exact ⟨by decide, by decide⟩
  · obtain ⟨hid1, hname1, _, hactive1, _⟩ := ensureCols_mem df
    have hrect1 := ensureCols_rect df hrect
    have hrect4 : df4.Rect :=
      coerceActive_rect _ _ hc4 (mapCol_rect _ _ _ (mapCol_rect _ _ _ hrect1))
    have hcols4 : df4.cols = (ensureCols df).cols := (coerceActive_spec _ _ hc4).1
    have hid4 : "id" ∈ df4.cols := by
      rw [hcols4]
      exact hid1
    have hidcol := pipeline_id_col df df4 hrect hc4
    have hlen4 : ∀ r ∈ df4.rows, df4.cols.indexOf "id" < r.length := by
      intro r hr
      rw [hrect4 r hr]
      exact List.indexOf_lt_length.mpr hid4
    have hstr4 : ∀ r ∈ df4.rows,
        isStrCell (r.getD (df4.cols.indexOf "id") Cell.NA) = true := by
      intro r hr
      have hmem : r.getD (df4.cols.indexOf "id") Cell.NA
          ∈ df4.rows.map (fun r => r.getD (df4.cols.indexOf "id") Cell.NA) :=
        List.mem_map_of_mem _ hr
      rw [hidcol] at hmem
      by_cases hm : "id" ∈ df.cols
      · rw [if_pos hm] at hmem
        exact hids _ hmem
      · rw [if_neg hm] at hmem
        rw [List.eq_of_mem_replicate hmem]
        rfl
    have hdist4 : ((idsOf (df4.cols.indexOf "id") df4.rows).filter
        (fun s => pyStrip s != "")).Nodup := by
      have hrw : idsOf (df4.cols.indexOf "id") df4.rows
          = (df4.rows.map (fun r => r.getD (df4.cols.indexOf "id") Cell.NA)).map
              cellAstype := by
        rw [List.map_map]
        rfl
      rw [hrw, hidcol]
      by_cases hm : "id" ∈ df.cols
      · rw [if_pos hm]
        exact hdist
      · rw [if_neg hm, List.map_replicate]
        have hnil : (List.replicate df.rows.length (cellAstype (Cell.str ""))).filter
            (fun s => pyStrip s != "") = [] := by
          rw [List.filter_eq_nil_iff]
          intro a ha
          rw [List.eq_of_mem_replicate ha]
          decide
        rw [hnil]
        exact List.nodup_nil
    have hcover : ∀ s ∈ idsOf (df4.cols.indexOf "id") df4.rows,
        s ∈ df4.rows.map (fun r => cellAstype (r.getD (df4.cols.indexOf "id") Cell.NA)) :=
      fun s hs => hs
    obtain ⟨hnd, hmem2, hstrips, hcases⟩ := assignRows_main (df4.cols.indexOf "id")
      (df4.cols.indexOf "name") df4.rows 0
      (df4.rows.map (fun r => cellAstype (r.getD (df4.cols.indexOf "id") Cell.NA)))
      hcover hdist4 hlen4
    have hidout : "id" ∈ (filterNamed (assignIds df4)).cols := hid4
    have hcol_out : (filterNamed (assignIds df4)).col "id"
        = (filterNamed (assignIds df4)).rows.map
            (fun r => r.getD (df4.cols.indexOf "id") Cell.NA) := by
      rw [DataFrame.col, if_pos hidout]
      rfl
    have hsub : (filterNamed (assignIds df4)).rows.Sublist
        (assignRows (df4.cols.indexOf "id") (df4.cols.indexOf "name") 0
          (df4.rows.map (fun r => cellAstype (r.getD (df4.cols.indexOf "id") Cell.NA)))
          df4.rows) :=
      List.filter_sublist _
    refine ⟨?_, ?_⟩
    · intro c hcmem
      rw [hcol_out] at hcmem
      rcases List.mem_map.mp hcmem with ⟨r', hr', rfl⟩
      have hr'' := hsub.subset hr'
      rcases hcases r' hr'' with ⟨p, hp, heq, hstrp⟩ | ⟨p, hp, sId, heq, hstrp⟩
      · rw [heq]
        exact ⟨hstr4 p hp, hstrp⟩
      · rw [heq]
        have hg : (p.set (df4.cols.indexOf "id") (Cell.str sId)).getD
            (df4.cols.indexOf "id") Cell.NA = Cell.str sId :=
          getD_set_self _ _ _ _ (hlen4 p hp)
        rw [hg]
        exact ⟨rfl, hstrp⟩
    · rw [hcol_out]
      have hrw2 : ((filterNamed (assignIds df4)).rows.map
            (fun r => r.getD (df4.cols.indexOf "id") Cell.NA)).map cellAstype
          = idsOf (df4.cols.indexOf "id") ((filterNamed (assignIds df4)).rows) := by
        rw [List.map_map]
        rfl
      rw [hrw2]
      exact hnd.sublist (hsub.map _)

theorem c1_amended_witness :
    (∀ c ∈ ((DataFrame.mk ["id", "name", "price", "active", "note"]
        [[Cell.str "BASIC", Cell.str "Basic", Cell.num 0, Cell.bool true,
          Cell.str ""]]).col "id"),
        isStrCell c = true ∧ pyStrip (cellAstype c) ≠ "") ∧
    (((DataFrame.mk ["id", "name", "price", "active", "note"]
        [[Cell.str "BASIC", Cell.str "Basic", Cell.num 0, Cell.bool true,
          Cell.str ""]]).col "id").map cellAstype).Nodup :=
  c1_amended ⟨["id", "name"], [[Cell.str "", Cell.str "Basic"]]⟩
    ⟨["id", "name", "price", "active", "note"],
      [[Cell.str "BASIC", Cell.str "Basic", Cell.num 0, Cell.bool true, Cell.str ""]]⟩
    (by decide) (by decide) (by decide) (by decide) rfl

theorem forall₂_mem_right {R : List Cell → List Cell → Prop}
    {l1 l2 : List (List Cell)} (h : List.Forall₂ R l1 l2) :
    ∀ b ∈ l2, ∃ a, a ∈ l1 ∧ R a b := by
  induction h with
  | nil => intro b hb; cases hb
  | cons hR hrest ih =>
      intro b hb
      rcases List.mem_cons.mp hb with rfl | hb'
      · exact ⟨_, List.mem_cons_self _ _, hR⟩
      · rcases ih b hb' with ⟨a, ha, hA⟩
        exact ⟨a, List.mem_cons_of_mem _ ha, hA⟩

theorem assignRows_cases_simple (idI nameI : Nat) :
    ∀ (rows : List (List Cell)) (i : Nat) (E : List String),
      ∀ r' ∈ assignRows idI nameI i E rows,
        ∃ r, r ∈ rows ∧ (r' = r ∨ ∃ s, r' = r.set idI (Cell.str s)) := by
  intro rows
  induction rows with
  | nil => intro i E r' hr'; simp [assignRows] at hr'
  | cons r rs ih =>
      intro i E r' hr'
      by_cases hneed : pyStrip (cellAstype (r.getD idI Cell.NA)) = ""
      · simp only [assignRows, if_pos hneed] at hr'
        rcases List.mem_cons.mp hr' with heq | hr''
        · exact ⟨r, List.mem_cons_self _ _, Or.inr ⟨_, heq⟩⟩
        · rcases ih _ _ r' hr'' with ⟨p, hp, hcase⟩
          exact ⟨p, List.mem_cons_of_mem _ hp, hcase⟩
      · simp only [assignRows, if_neg hneed] at hr'
        rcases List.mem_cons.mp hr' with heq | hr''
        · exact ⟨r, List.mem_cons_self _ _, Or.inl heq⟩
        · rcases ih _ _ r' hr'' with ⟨p, hp, hcase⟩
          exact ⟨p, List.mem_cons_of_mem _ hp, hcase⟩

/-- C10 (implicit): ensure_packages_df coerces the active column with
    astype(bool), i.e. Python bool(): every non-empty string — "FALSE" and
    "false" as round-tripped through the string-valued sheet included — maps
    to true, the empty string maps to false, and the missing marker raises;
    hence on a table whose active cells are all non-empty strings (the shape
    a read produces for cells that were not blank), every normalized row is
    active, so only empty/missing cells can yield an inactive package after
    a read-normalize cycle.  The kiosk page re-parses the same column with
    its own string rule as_bool, under which "FALSE"/"false" are false. -/
theorem c10_active_coercion (df out : DataFrame)
    (hrect : df.Rect) (hnodup : df.cols.Nodup)
    (hne : df.isEmpty = false) (hname : "name" ∈ df.cols)
    (hactive : "active" ∈ df.cols)
    (hcells : ∀ c ∈ df.col "active", isNonemptyStr c = true)
    (hok : ensure_packages_df df = Except.ok out) :
    (∀ r ∈ out.rows, r.getD (out.cols.indexOf "active") Cell.NA = Cell.bool true) ∧
    (∀ s : String, s ≠ "" → astypeBoolCell (Cell.str s) = Except.ok true) ∧
    astypeBoolCell (Cell.str "FALSE") = Except.ok true ∧
    astypeBoolCell (Cell.str "false") = Except.ok true ∧
    astypeBoolCell (Cell.str "") = Except.ok false ∧
    astypeBoolCell Cell.NA = Except.error "TypeError: boolean value of NA is ambiguous" ∧
    as_bool (Cell.str "FALSE") = false ∧
    as_bool (Cell.str "false") = false ∧
    as_bool (Cell.str "TRUE") = true ∧
    (∀ b, as_bool (Cell.bool b) = b) := by
  refine ⟨?_, ?_, rfl, rfl, rfl, rfl, by decide, by decide, by decide,
    fun b => rfl⟩
  case refine_2 =>
    intro s hs
    show Except.ok (s != "") = Except.ok true
    rw [show (s != "") = true from bne_iff_ne.mpr hs]
  · rcases ensure_packages_ok_cases df out hok with ⟨hcond, _⟩ | ⟨_, df4, hc4, rfl⟩
    · exfalso
      have hcont : df.cols.contains "name" = true := contains_true_iff_mem.mpr hname
      rw [hne, hcont] at hcond
      simp at hcond
    · obtain ⟨hid1, hname1, _, hactive1, _⟩ := ensureCols_mem df
      have hrect1 := ensureCols_rect df hrect
      have hrect3 : (mapCol (mapCol (ensureCols df) "name"
          (fun c => Cell.str (pyStrip (cellAstype c)))) "price"
          (fun c => Cell.num ((toNumericCell c).getD 0))).Rect :=
        mapCol_rect _ _ _ (mapCol_rect _ _ _ hrect1)
      have h0 := ensureCols_col_untouched df "active" hactive hrect
      have h1 := mapCol_col_untouched (ensureCols df) "name" "active"
        (fun c => Cell.str (pyStrip (cellAstype c))) (by decide) hactive1
      have h2 := mapCol_col_untouched (mapCol (ensureCols df) "name"
          (fun c => Cell.str (pyStrip (cellAstype c)))) "price" "active"
        (fun c => Cell.num ((toNumericCell c).getD 0)) (by decide) hactive1
      have hcolA : df.col "active" = df.rows.map
          (fun r => r.getD (df.cols.indexOf "active") Cell.NA) := by
        rw [DataFrame.col, if_pos hactive]
      have hd3 : (mapCol (mapCol (ensureCols df) "name"
          (fun c => Cell.str (pyStrip (cellAstype c)))) "price"
          (fun c => Cell.num ((toNumericCell c).getD 0))).rows.map
            (fun r => r.getD ((mapCol (mapCol (ensureCols df) "name"
              (fun c => Cell.str (pyStrip (cellAstype c)))) "price"
              (fun c => Cell.num ((toNumericCell c).getD 0))).cols.indexOf "active")
              Cell.NA)
          = df.col "active" := by
        rw [hcolA]
        exact h2.trans (h1.trans h0)
      obtain ⟨hcols4, hfa⟩ := coerceActive_spec _ df4 hc4
      have hall4 : ∀ r4 ∈ df4.rows,
          r4.getD (df4.cols.indexOf "active") Cell.NA = Cell.bool true := by
        intro r4 hr4
        rcases forall₂_mem_right hfa r4 hr4 with ⟨r3, hr3, hR⟩
        have hc3mem : r3.getD ((mapCol (mapCol (ensureCols df) "name"
            (fun c => Cell.str (pyStrip (cellAstype c)))) "price"
            (fun c => Cell.num ((toNumericCell c).getD 0))).cols.indexOf "active")
            Cell.NA ∈ df.col "active" := by
          rw [← hd3]
          exact List.mem_map_of_mem _ hr3
        have hstr := hcells _ hc3mem
        have hjlt : (mapCol (mapCol (ensureCols df) "name"
            (fun c => Cell.str (pyStrip (cellAstype c)))) "price"
            (fun c => Cell.num ((toNumericCell c).getD 0))).cols.indexOf "active"
            < r3.length := by
          rw [hrect3 r3 hr3]
          exact List.indexOf_lt_length.mpr hactive1
        obtain ⟨_, _, hval⟩ := applyAtE_ok _ _ _ _ hR
        obtain ⟨v, hfv, hgetv⟩ := hval hjlt
        rcases hcell : r3.getD ((mapCol (mapCol (ensureCols df) "name"
            (fun c => Cell.str (pyStrip (cellAstype c)))) "price"
            (fun c => Cell.num ((toNumericCell c).getD 0))).cols.indexOf "active")
            Cell.NA with _ | s | q | b
        · rw [hcell] at hstr
          cases hstr
        · rw [hcell] at hstr hfv
          have hsne : (s != "") = true := hstr
          rw [show astypeBoolCell (Cell.str s) = Except.ok (s != "") from rfl, hsne] at hfv
          replace hfv : Except.ok (Cell.bool true) = Except.ok v := hfv
          injection hfv with hfv
          rw [← hfv] at hgetv
          rw [hcols4]
          exact hgetv
        · rw [hcell] at hstr
          cases hstr
        · rw [hcell] at hstr
          cases hstr
      have hsub2 : (filterNamed (assignIds df4)).rows.Sublist
          (assignRows (df4.cols.indexOf "id") (df4.cols.indexOf "name") 0
            (df4.rows.map (fun r => cellAstype (r.getD (df4.cols.indexOf "id") Cell.NA)))
            df4.rows) := List.filter_sublist _
      intro r hr
      show r.getD (df4.cols.indexOf "active") Cell.NA = Cell.bool true
      have hr' := hsub2.subset hr
      rcases assignRows_cases_simple (df4.cols.indexOf "id") (df4.cols.indexOf "name")
        df4.rows 0 (df4.rows.map (fun r => cellAstype
          (r.getD (df4.cols.indexOf "id") Cell.NA))) r hr' with ⟨p, hp, hcase⟩
      have hcols4' : df4.cols = (ensureCols df).cols := hcols4
      have hid4 : "id" ∈ df4.cols := by
        rw [hcols4']
        exact hid1
      have hactive4 : "active" ∈ df4.cols := by
        rw [hcols4']
        exact hactive1
      have hidx_ne : df4.cols.indexOf "active" ≠ df4.cols.indexOf "id" :=
        indexOf_ne_of_mem_ne hactive4 (by decide)
      rcases hcase with heq | ⟨s, heq⟩
      · rw [heq]
        exact hall4 p hp
      · rw [heq, getD_set_ne _ _ _ _ _ hidx_ne]
        exact hall4 p hp

theorem c10_active_coercion_witness :
    (∀ r ∈ (DataFrame.mk ["name", "active", "id", "price", "note"]
        [[Cell.str "Basic", Cell.bool true, Cell.str "BASIC", Cell.num 0,
          Cell.str ""]]).rows,
        r.getD ((DataFrame.mk ["name", "active", "id", "price", "note"]
          [[Cell.str "Basic", Cell.bool true, Cell.str "BASIC", Cell.num 0,
            Cell.str ""]]).cols.indexOf "active") Cell.NA = Cell.bool true) ∧
    (∀ s : String, s ≠ "" → astypeBoolCell (Cell.str s) = Except.ok true) ∧
    astypeBoolCell (Cell.str "FALSE") = Except.ok true ∧
    astypeBoolCell (Cell.str "false") = Except.ok true ∧
    astypeBoolCell (Cell.str "") = Except.ok false ∧
    astypeBoolCell Cell.NA = Except.error "TypeError: boolean value of NA is ambiguous" ∧
    as_bool (Cell.str "FALSE") = false ∧
    as_bool (Cell.str "false") = false ∧
    as_bool (Cell.str "TRUE") = true ∧
    (∀ b, as_bool (Cell.bool b) = b) :=
  c10_active_coercion ⟨["name", "active"], [[Cell.str "Basic", Cell.str "FALSE"]]⟩
    ⟨["name", "active", "id", "price", "note"],
      [[Cell.str "Basic", Cell.bool true, Cell.str "BASIC", Cell.num 0, Cell.str ""]]⟩
    (by decide) (by decide) (by decide) (by decide) (by decide) (by decide) rfl
